import Mathlib

/-!
# Verification of the nova-easing engine (`src/lib.rs`)

Shallow embedding of the easing-function engine over exact real arithmetic.

* The scalar specialization (`impl EasingImplHelper for T: Scalar` together with the
  provided methods of `EasingArgument`/`EasingImplHelper`) is modelled by functions
  `Nova.ease_* : ℝ → ℝ`.
* The SIMD specialization (`impl EasingImplHelper for Simd<T, N>`) is modelled by
  functions `Nova.Simd.ease_* : Vec N → Vec N` on lane vectors `Vec N := Fin N → ℝ`,
  with lane-wise masks and `select`.

Modelling conventions (the float type is abstracted by `ℝ`):
* `Float::powf x y` (only applied to positive bases in the library) is modelled as
  `Real.exp (y * Real.log x)`, which is its exact mathematical value for `x > 0`;
  the SIMD `powf` is written this way in the source itself.
* The `f32` literals (`1.70158`, `2.0943952`, ...) are taken at their decimal value;
  the constants `FRAC_PI_2` and `PI` are taken as exactly `π/2` and `π`.
* `T::from(x).unwrap()` goes through `Nova.from_prim`, the model of
  `num_traits::FromPrimitive::from_f32` at `f32`/`f64`. Modelled from the spec:
  the crate `num_traits` is not part of this repository; per the spec contract of
  `from_constant` the conversion is total, returning `some` of the (widened) value.
* The scalar `Float::powi` is a total library primitive, modelled as `zpow`.
  The SIMD `powi` is the recursive squaring algorithm of the source; it is modelled
  twice: as the inductive call-graph relation `Nova.Simd.PowiComputes` (faithful to
  the `i32` recursion, including its non-termination at exponents `≤ 0`), and as the
  function `Nova.Simd.powi` on `ℕ` used by the easing formulas (which only invoke it
  at exponents 2..5; the `0` case of the Lean function is an arbitrary total
  completion of the source's divergent case, unreachable from the formula layer).
-/

noncomputable section

namespace Nova

/-- Model of `num_traits::FromPrimitive::from_f32` for `f32`/`f64`. Modelled from the
spec: conversion of a 32-bit float constant never fails for the two scalar kinds, so
it returns `some` of the value. -/
def from_prim (x : ℝ) : Option ℝ := some x

/-- `T::from(arg).unwrap()` / `Self::from_f32(arg)` of the scalar impl: the unwrap is
modelled by `Option.get`, whose proof obligation is exactly "the conversion
succeeded". -/
def from_f32 (x : ℝ) : ℝ := (from_prim x).get rfl

@[simp] theorem from_f32_eq (x : ℝ) : from_f32 x = x := rfl

/-! Normalization of the decimal literals of the source to integer numerals, so the
branch conditions of the scalar and SIMD forms line up syntactically. -/

theorem lit_zero : (0.0 : ℝ) = 0 := by norm_num

theorem lit_one : (1.0 : ℝ) = 1 := by norm_num

theorem lit_two : (2.0 : ℝ) = 2 := by norm_num

theorem lit_eight : (8.0 : ℝ) = 8 := by norm_num

theorem lit_ten : (10.0 : ℝ) = 10 := by norm_num

theorem lit_sixteen : (16.0 : ℝ) = 16 := by norm_num

theorem lit_twenty : (20.0 : ℝ) = 20 := by norm_num

/-- `mul_add` of the numeric abstraction: fused `self * a + b` (exact over `ℝ`). -/
def mul_add (x a b : ℝ) : ℝ := x * a + b

/-- `double` of the numeric abstraction: `self + self`. -/
def double (x : ℝ) : ℝ := x + x

/-- Scalar `Float::powi`: total integer power of the float library. -/
def powi (x : ℝ) (n : ℤ) : ℝ := x ^ n

/-- Scalar `Float::powf`, at the positive bases the library uses:
`x ^ y = exp (y * ln x)`. -/
def powf (x y : ℝ) : ℝ := Real.exp (y * Real.log x)

/-! ## Scalar specialization: the easing formulas of `EasingArgument` and
`impl EasingImplHelper for T: Scalar` -/

/-- `ease_in_pow` (default method): `self.powi(n)`. -/
def ease_in_pow (t : ℝ) (n : ℤ) : ℝ := powi t n

/-- `ease_out_pow` (default method): `1 - (1 - self).powi(n)`. -/
def ease_out_pow (t : ℝ) (n : ℤ) : ℝ := from_f32 1.0 - powi (from_f32 1.0 - t) n

def ease_in_quad (t : ℝ) : ℝ := ease_in_pow t 2

def ease_out_quad (t : ℝ) : ℝ := ease_out_pow t 2

def ease_in_cubic (t : ℝ) : ℝ := ease_in_pow t 3

def ease_out_cubic (t : ℝ) : ℝ := ease_out_pow t 3

def ease_in_quart (t : ℝ) : ℝ := ease_in_pow t 4

def ease_out_quart (t : ℝ) : ℝ := ease_out_pow t 4

def ease_in_quint (t : ℝ) : ℝ := ease_in_pow t 5

def ease_out_quint (t : ℝ) : ℝ := ease_out_pow t 5

/-- Scalar `ease_in_out_quad`. -/
def ease_in_out_quad (t : ℝ) : ℝ :=
  let half := from_f32 0.5;
  let one : ℝ := 1;
  let two := from_f32 2.0;
  if t < half then two * powi t 2 else one - (powi (two * t - two) 2 * half)

/-- Scalar `ease_in_out_cubic`. -/
def ease_in_out_cubic (t : ℝ) : ℝ :=
  let half := from_f32 0.5;
  if t < half then
    let cubed := powi t 3;
    let doubled := double cubed;
    doubled + doubled
  else
    let one : ℝ := 1;
    let two := from_f32 2.0;
    one - powi (two - double t) 3 * half

/-- Scalar `ease_in_out_quart`. -/
def ease_in_out_quart (t : ℝ) : ℝ :=
  let half := from_f32 0.5;
  if t < half then from_f32 8.0 * powi t 4
  else
    let one : ℝ := 1;
    let two := from_f32 2.0;
    one - powi (two - double t) 4 * half

/-- Scalar `ease_in_out_quint`. -/
def ease_in_out_quint (t : ℝ) : ℝ :=
  let half := from_f32 0.5;
  if t < half then from_f32 16.0 * powi t 5
  else
    let one : ℝ := 1;
    let two := from_f32 2.0;
    one - powi (two - double t) 5 * half

/-- Scalar `ease_in_out_back`: the `0.5` factor is applied inside each branch. -/
def ease_in_out_back (t : ℝ) : ℝ :=
  let c2 := from_f32 (1.70158 * 1.525);
  let half := from_f32 0.5;
  let two := from_f32 2.0;
  if t < half then
    let two_x := double t;
    let pow_two_x_2 := powi two_x 2;
    let inner := mul_add (c2 + 1) two_x (-c2);
    pow_two_x_2 * inner * half
  else
    let two_x_minus_2 := double t - two;
    let pow_two_x_minus_2_2 := powi two_x_minus_2 2;
    let inner := mul_add (c2 + 1) (double t - two) c2;
    mul_add pow_two_x_minus_2_2 inner two * half

/-- Scalar `ease_out_bounce`: four quadratic branches. -/
def ease_out_bounce (t : ℝ) : ℝ :=
  let n1 := from_f32 7.5625;
  let one_over_d1 := from_f32 (1.0 / 2.75);
  let two_over_d1 := from_f32 (2.0 / 2.75);
  let two_point_five_over_d1 := from_f32 (2.5 / 2.75);
  if t < one_over_d1 then n1 * t * t
  else if t < two_over_d1 then
    let adjusted := t - from_f32 (1.5 / 2.75);
    mul_add (adjusted * adjusted) n1 (from_f32 0.75)
  else if t < two_point_five_over_d1 then
    let adjusted := t - from_f32 (2.25 / 2.75);
    mul_add (adjusted * adjusted) n1 (from_f32 0.9375)
  else
    let adjusted := t - from_f32 (2.625 / 2.75);
    mul_add (adjusted * adjusted) n1 (from_f32 0.984375)

/-- `ease_in_bounce` (default method): `1 - ease_out_bounce (1 - self)`. -/
def ease_in_bounce (t : ℝ) : ℝ := from_f32 1.0 - ease_out_bounce (from_f32 1.0 - t)

/-- Scalar `ease_in_out_bounce`. -/
def ease_in_out_bounce (t : ℝ) : ℝ :=
  let half := from_f32 0.5;
  let one : ℝ := 1;
  if t < half then (one - ease_out_bounce (one - double t)) * half
  else (one + ease_out_bounce (double t - one)) * half

/-- Scalar `ease_in_expo`: explicit equality check at `0`. -/
def ease_in_expo (t : ℝ) : ℝ :=
  if t = 0 then 0
  else powf (from_f32 2.0) (mul_add (from_f32 10.0) t (-from_f32 10.0))

/-- Scalar `ease_out_expo`: explicit equality check at `1`. -/
def ease_out_expo (t : ℝ) : ℝ :=
  if t = 1 then 1
  else mul_add (powf (from_f32 2.0) (-from_f32 10.0 * t)) (-(1 : ℝ)) 1

/-- Scalar `ease_in_out_expo`: explicit equality checks at `0` and `1`, then a strict
comparison with `0.5`. -/
def ease_in_out_expo (t : ℝ) : ℝ :=
  if t = 0 then 0
  else if t = 1 then 1
  else if t < from_f32 0.5 then
    mul_add (powf (from_f32 2.0) (mul_add (from_f32 20.0) t (-from_f32 10.0)))
      (from_f32 0.5) 0
  else
    mul_add (powf (from_f32 2.0) (mul_add (from_f32 (-20.0)) t (from_f32 10.0)))
      (-from_f32 0.5) 1

/-- Scalar `ease_in_elastic`. -/
def ease_in_elastic (t : ℝ) : ℝ :=
  if t = 0 then 0
  else if t = 1 then 1
  else
    let c4 := from_f32 2.0943952;
    -powf (from_f32 2.0) (from_f32 10.0 * t - from_f32 10.0) *
      Real.sin (mul_add t (from_f32 10.0) (-from_f32 10.75) * c4)

/-- Scalar `ease_out_elastic`. -/
def ease_out_elastic (t : ℝ) : ℝ :=
  if t = 0 then 0
  else if t = 1 then 1
  else
    let c4 := from_f32 2.0943952;
    mul_add (powf (from_f32 2.0) (-from_f32 10.0 * t))
      (Real.sin (mul_add t (from_f32 10.0) (-from_f32 0.75) * c4)) 1

/-- Scalar `ease_in_out_elastic`. -/
def ease_in_out_elastic (t : ℝ) : ℝ :=
  if t = 0 then 0
  else if t = 1 then 1
  else if t < from_f32 0.5 then
    let c5 := from_f32 1.3962634;
    -powf (from_f32 2.0) (from_f32 20.0 * t - from_f32 10.0) *
      Real.sin (mul_add t (from_f32 20.0) (-from_f32 11.125) * c5) * from_f32 0.5
  else
    let c5 := from_f32 1.3962634;
    mul_add (powf (from_f32 2.0) (-from_f32 20.0 * t + from_f32 10.0))
      (Real.sin (mul_add t (from_f32 20.0) (-from_f32 11.125) * c5) * from_f32 0.5) 1

/-- Scalar `ease_in_out_circ`. -/
def ease_in_out_circ (t : ℝ) : ℝ :=
  let half := from_f32 0.5;
  let one : ℝ := 1;
  let two := from_f32 2.0;
  let dbl := double t;
  if t < half then (one - Real.sqrt (one - powi dbl 2)) * half
  else (Real.sqrt (one - powi (two - dbl) 2) + one) * half

/-- `ease_in_sine` (default method); `FRAC_PI_2` is modelled as exactly `π/2`. -/
def ease_in_sine (t : ℝ) : ℝ :=
  let one := from_f32 1.0;
  let pi_half := from_f32 (Real.pi / 2);
  one - Real.cos (t * pi_half)

/-- `ease_out_sine` (default method). -/
def ease_out_sine (t : ℝ) : ℝ :=
  let pi_half := from_f32 (Real.pi / 2);
  Real.sin (t * pi_half)

/-- `ease_in_out_sine` (default method); `PI` is modelled as exactly `π`. -/
def ease_in_out_sine (t : ℝ) : ℝ :=
  let cos_val := Real.cos (t * from_f32 Real.pi);
  mul_add cos_val (from_f32 (-0.5)) (from_f32 0.5)

/-- `ease_in_circ` (default method). -/
def ease_in_circ (t : ℝ) : ℝ :=
  let one := from_f32 1.0;
  one - Real.sqrt (one - powi t 2)

/-- `ease_out_circ` (default method). -/
def ease_out_circ (t : ℝ) : ℝ :=
  let one := from_f32 1.0;
  Real.sqrt (one - powi (t - one) 2)

/-- `ease_in_back` (default method). -/
def ease_in_back (t : ℝ) : ℝ :=
  let c1 := from_f32 1.70158;
  let c3 := from_f32 2.70158;
  c3 * powi t 3 - c1 * powi t 2

/-- `ease_out_back` (default method). -/
def ease_out_back (t : ℝ) : ℝ :=
  let c1 := from_f32 1.70158;
  let c3 := from_f32 2.70158;
  let one := from_f32 1.0;
  one + c3 * powi (t - one) 3 + c1 * powi (t - one) 2

/-- Scalar `ease_in_curve`: identity branch when `|curve| < 0.001`, otherwise the
exponential closed form. The scalar curve parameter coerces to itself. -/
def ease_in_curve (t curve : ℝ) : ℝ :=
  let c := curve;
  if |c| < from_f32 0.001 then t
  else
    let grow := Real.exp c;
    let one : ℝ := 1;
    let a := one / (one - grow);
    a - a * powf grow t

/-- Scalar `ease_out_curve`: `1 - ease_in_curve (1 - self)`. -/
def ease_out_curve (t curve : ℝ) : ℝ := 1 - ease_in_curve (1 - t) curve

/-- Scalar `ease_in_out_curve`. -/
def ease_in_out_curve (t curve : ℝ) : ℝ :=
  let half := from_f32 0.5;
  if t < half then ease_in_curve (double t) curve * half
  else half + ease_out_curve (double (t - half)) curve * half

/-! ## SIMD specialization: `impl EasingImplHelper for Simd<T, N>` -/

/-- Lane vectors: `Simd<T, N>` with `f32`/`f64` lanes abstracted to `ℝ`. -/
abbrev Vec (N : ℕ) := Fin N → ℝ

namespace Simd

variable {N : ℕ}

/-- `Simd::splat`. -/
def splat (c : ℝ) : Vec N := fun _ => c

/-- SIMD `from_f32`: `Simd::splat(T::from_f32_scalar(arg))`; the scalar conversion
widens losslessly, modelled as the identity on `ℝ`. -/
def from_f32 (c : ℝ) : Vec N := splat c

/-- `simd_lt`: lane-wise less-than mask. -/
def simd_lt (u v : Vec N) : Fin N → Prop := fun i => u i < v i

/-- `simd_eq`: lane-wise equality mask. -/
def simd_eq (u v : Vec N) : Fin N → Prop := fun i => u i = v i

/-- `Mask::select`: per-lane blend picking between two precomputed vectors. -/
def select (m : Fin N → Prop) (a b : Vec N) : Vec N :=
  fun i => @ite _ (m i) (Classical.propDecidable _) (a i) (b i)

/-- Lane-wise `StdFloat::sin`. -/
def sin (v : Vec N) : Vec N := fun i => Real.sin (v i)

/-- Lane-wise `StdFloat::cos`. -/
def cos (v : Vec N) : Vec N := fun i => Real.cos (v i)

/-- Lane-wise `StdFloat::exp`. -/
def exp (v : Vec N) : Vec N := fun i => Real.exp (v i)

/-- Lane-wise `StdFloat::ln`. -/
def ln (v : Vec N) : Vec N := fun i => Real.log (v i)

/-- Lane-wise `StdFloat::sqrt`. -/
def sqrt (v : Vec N) : Vec N := fun i => Real.sqrt (v i)

/-- Lane-wise `SimdFloat::abs`. -/
def abs (v : Vec N) : Vec N := fun i => |v i|

/-- Lane-wise `StdFloat::mul_add`: `self * a + b`. -/
def mul_add (x a b : Vec N) : Vec N := x * a + b

/-- `double`: `self + self` (default method of the helper trait). -/
def double (v : Vec N) : Vec N := v + v

/-- `ln_2()` splatted, as the SIMD impl builds it: `Simd::splat(T::ln_2())`. -/
def ln2 : Vec N := splat (Real.log 2)

/-- SIMD `powi`: exponentiation by squaring, as in the source recursion
(`n == 1 ↦ self`; even `n ↦` square of the half power; odd `n ↦` one more factor).
The exponent is restricted to `ℕ` and the (in the source divergent, and from the
formula layer unreachable) case `n = 0` is completed with `1`; the faithful `i32`
recursion is the relation `PowiComputes` below. -/
def powi (v : Vec N) (n : ℕ) : Vec N :=
  if _h0 : n = 0 then 1
  else if _h1 : n = 1 then v
  else if _h2 : n % 2 = 0 then
    let tmp := powi v (n / 2);
    tmp * tmp
  else v * powi v (n - 1)
termination_by n
decreasing_by all_goals omega

/-- SIMD `powf`: `exp (other * ln self)`, verbatim from the source. -/
def powf (x other : Vec N) : Vec N := exp (other * ln x)

/-- The call graph of the source's SIMD `powi` on a genuine `i32` exponent:
`PowiComputes v n r` holds exactly when the recursion on exponent `n` terminates
with result `r`. Only even exponents are halved, so `n / 2` and `n % 2 = 0` agree
with Rust's truncated division on every input reached. -/
inductive PowiComputes (v : Vec N) : ℤ → Vec N → Prop
  | one : PowiComputes v 1 v
  | even (n : ℤ) (r : Vec N) : n ≠ 1 → n % 2 = 0 → PowiComputes v (n / 2) r →
      PowiComputes v n (r * r)
  | odd (n : ℤ) (r : Vec N) : n ≠ 1 → n % 2 ≠ 0 → PowiComputes v (n - 1) r →
      PowiComputes v n (v * r)

/-! ### The SIMD easing formulas -/

/-- `ease_in_pow` (default method): `self.powi(n)`. -/
def ease_in_pow (v : Vec N) (n : ℕ) : Vec N := powi v n

/-- `ease_out_pow` (default method): `1 - (1 - self).powi(n)`. -/
def ease_out_pow (v : Vec N) (n : ℕ) : Vec N := from_f32 1.0 - powi (from_f32 1.0 - v) n

def ease_in_quad (v : Vec N) : Vec N := ease_in_pow v 2

def ease_out_quad (v : Vec N) : Vec N := ease_out_pow v 2

def ease_in_cubic (v : Vec N) : Vec N := ease_in_pow v 3

def ease_out_cubic (v : Vec N) : Vec N := ease_out_pow v 3

def ease_in_quart (v : Vec N) : Vec N := ease_in_pow v 4

def ease_out_quart (v : Vec N) : Vec N := ease_out_pow v 4

def ease_in_quint (v : Vec N) : Vec N := ease_in_pow v 5

def ease_out_quint (v : Vec N) : Vec N := ease_out_pow v 5

/-- SIMD `ease_in_out_quad`: mask-and-select. -/
def ease_in_out_quad (v : Vec N) : Vec N :=
  let half := from_f32 0.5;
  let mask := simd_lt v half;
  let lower_half := double (powi v 2);
  let upper_half := from_f32 1.0 - powi (double v - from_f32 2.0) 2 * half;
  select mask lower_half upper_half

/-- SIMD `ease_in_out_cubic`. -/
def ease_in_out_cubic (v : Vec N) : Vec N :=
  let half := from_f32 0.5;
  let mask := simd_lt v half;
  let lower_half :=
    let cubed := powi v 3;
    let doubled := double cubed;
    doubled + doubled;
  let upper_half :=
    let one := from_f32 1.0;
    let two := from_f32 2.0;
    one - powi (two - double v) 3 * half;
  select mask lower_half upper_half

/-- SIMD `ease_in_out_quart`. -/
def ease_in_out_quart (v : Vec N) : Vec N :=
  let half := from_f32 0.5;
  let mask := simd_lt v half;
  let lower_half := from_f32 8.0 * powi v 4;
  let upper_half :=
    let one := from_f32 1.0;
    let two := from_f32 2.0;
    one - powi (two - double v) 4 * half;
  select mask lower_half upper_half

/-- SIMD `ease_in_out_quint`. -/
def ease_in_out_quint (v : Vec N) : Vec N :=
  let half := from_f32 0.5;
  let mask := simd_lt v half;
  let lower_half := from_f32 16.0 * powi v 5;
  let upper_half :=
    let one := from_f32 1.0;
    let two := from_f32 2.0;
    one - powi (two - double v) 5 * half;
  select mask lower_half upper_half

/-- SIMD `ease_in_out_back`: both branches computed without the `0.5` factor, which
is applied once after the blend (the scalar form applies it inside each branch). -/
def ease_in_out_back (v : Vec N) : Vec N :=
  let c2 := from_f32 (1.70158 * 1.525);
  let half := from_f32 0.5;
  let mask := simd_lt v half;
  let lower_half :=
    let two_x := double v;
    let pow_two_x_2 := powi two_x 2;
    let inner := mul_add (c2 + from_f32 1.0) two_x (-c2);
    pow_two_x_2 * inner;
  let upper_half :=
    let two_x_minus_2 := double v - from_f32 2.0;
    let pow_two_x_minus_2_2 := powi two_x_minus_2 2;
    let inner := mul_add (c2 + from_f32 1.0) (double v - from_f32 2.0) c2;
    mul_add pow_two_x_minus_2_2 inner (from_f32 2.0);
  select mask lower_half upper_half * half

/-- SIMD `ease_out_bounce`: all four branches computed, nested selects. -/
def ease_out_bounce (v : Vec N) : Vec N :=
  let n1 := from_f32 7.5625;
  let one_over_d1 := from_f32 (1.0 / 2.75);
  let two_over_d1 := from_f32 (2.0 / 2.75);
  let two_point_five_over_d1 := from_f32 (2.5 / 2.75);
  let mask1 := simd_lt v one_over_d1;
  let mask2 := simd_lt v two_over_d1;
  let mask3 := simd_lt v two_point_five_over_d1;
  let branch1 := n1 * v * v;
  let adjusted2 := v - from_f32 (1.5 / 2.75);
  let branch2 := mul_add (adjusted2 * adjusted2) n1 (from_f32 0.75);
  let adjusted3 := v - from_f32 (2.25 / 2.75);
  let branch3 := mul_add (adjusted3 * adjusted3) n1 (from_f32 0.9375);
  let adjusted4 := v - from_f32 (2.625 / 2.75);
  let branch4 := mul_add (adjusted4 * adjusted4) n1 (from_f32 0.984375);
  select mask1 branch1 (select mask2 branch2 (select mask3 branch3 branch4))

/-- `ease_in_bounce` (default method): `1 - ease_out_bounce (1 - self)`. -/
def ease_in_bounce (v : Vec N) : Vec N := from_f32 1.0 - ease_out_bounce (from_f32 1.0 - v)

/-- SIMD `ease_in_out_bounce`. -/
def ease_in_out_bounce (v : Vec N) : Vec N :=
  let half := from_f32 0.5;
  let one := from_f32 1.0;
  let mask := simd_lt v half;
  let lower_half := one - ease_out_bounce (one - double v);
  let upper_half := one + ease_out_bounce (double v - one);
  select mask lower_half upper_half * half

/-- SIMD `ease_in_expo`: `2 ^ e` computed as `exp (e * ln 2)`, endpoint `0` by
equality mask. -/
def ease_in_expo (v : Vec N) : Vec N :=
  let zero := from_f32 0.0;
  let ten := from_f32 10.0;
  let mask_zero := simd_eq v zero;
  let exponent := mul_add ten v (-ten);
  let normal := exp (exponent * ln2);
  select mask_zero zero normal

/-- SIMD `ease_out_expo`. -/
def ease_out_expo (v : Vec N) : Vec N :=
  let one := from_f32 1.0;
  let neg_ten := from_f32 (-10.0);
  let mask_one := simd_eq v one;
  let exponent := neg_ten * v;
  let normal := mul_add (exp (exponent * ln2)) (-from_f32 1.0) one;
  select mask_one one normal

/-- SIMD `ease_in_out_expo`: both halves computed, then blended under the half mask,
then overridden by the `= 1` mask and finally the `= 0` mask. -/
def ease_in_out_expo (v : Vec N) : Vec N :=
  let zero := from_f32 0.0;
  let one := from_f32 1.0;
  let half := from_f32 0.5;
  let twenty := from_f32 20.0;
  let ten := from_f32 10.0;
  let mask_zero := simd_eq v zero;
  let mask_one := simd_eq v one;
  let mask_half := simd_lt v half;
  let exponent_lower := mul_add twenty v (-ten);
  let branch_lower := exp (exponent_lower * ln2) * half;
  let exponent_upper := mul_add (-twenty) v ten;
  let branch_upper := mul_add (exp (exponent_upper * ln2)) (-half) one;
  let temp := select mask_half branch_lower branch_upper;
  let temp2 := select mask_one one temp;
  select mask_zero zero temp2

/-- SIMD `ease_in_elastic`. -/
def ease_in_elastic (v : Vec N) : Vec N :=
  let zero := from_f32 0.0;
  let one := from_f32 1.0;
  let c4 := from_f32 2.0943952;
  let ten := from_f32 10.0;
  let minus_ten_point_75 := from_f32 (-10.75);
  let mask_zero := simd_eq v zero;
  let mask_one := simd_eq v one;
  let exponent := mul_add ten v (-ten);
  let sin_arg := mul_add ten v minus_ten_point_75 * c4;
  let normal := -exp (exponent * ln2) * sin sin_arg;
  let temp := select mask_one one normal;
  select mask_zero zero temp

/-- SIMD `ease_out_elastic`. -/
def ease_out_elastic (v : Vec N) : Vec N :=
  let zero := from_f32 0.0;
  let one := from_f32 1.0;
  let c4 := from_f32 2.0943952;
  let ten := from_f32 10.0;
  let minus_zero_point_75 := from_f32 (-0.75);
  let mask_zero := simd_eq v zero;
  let mask_one := simd_eq v one;
  let exponent := -ten * v;
  let sin_arg := mul_add ten v minus_zero_point_75 * c4;
  let normal := mul_add (exp (exponent * ln2)) (sin sin_arg) one;
  let temp := select mask_one one normal;
  select mask_zero zero temp

/-- SIMD `ease_in_out_elastic`: one shared `sin_arg` for both halves. -/
def ease_in_out_elastic (v : Vec N) : Vec N :=
  let zero := from_f32 0.0;
  let one := from_f32 1.0;
  let half := from_f32 0.5;
  let c5 := from_f32 1.3962634;
  let twenty := from_f32 20.0;
  let ten := from_f32 10.0;
  let minus_eleven_point_125 := from_f32 (-11.125);
  let mask_zero := simd_eq v zero;
  let mask_one := simd_eq v one;
  let mask_half := simd_lt v half;
  let exponent_lower := mul_add twenty v (-ten);
  let sin_arg := mul_add twenty v minus_eleven_point_125 * c5;
  let branch_lower := -exp (exponent_lower * ln2) * sin sin_arg * half;
  let exponent_upper := mul_add (-twenty) v ten;
  let branch_upper := mul_add (exp (exponent_upper * ln2)) (sin sin_arg * half) one;
  let temp := select mask_half branch_lower branch_upper;
  let temp2 := select mask_one one temp;
  select mask_zero zero temp2

/-- SIMD `ease_in_out_circ`: the `0.5` factor applied after the blend. -/
def ease_in_out_circ (v : Vec N) : Vec N :=
  let half := from_f32 0.5;
  let mask := simd_lt v half;
  let one := from_f32 1.0;
  let two := from_f32 2.0;
  let dbl := double v;
  let lower_half := one - sqrt (one - powi dbl 2);
  let upper_half := sqrt (one - powi (two - dbl) 2) + one;
  select mask lower_half upper_half * half

/-- `ease_in_sine` (default method, instantiated lane-wise). -/
def ease_in_sine (v : Vec N) : Vec N :=
  let one := from_f32 1.0;
  let pi_half := from_f32 (Real.pi / 2);
  one - cos (v * pi_half)

/-- `ease_out_sine` (default method). -/
def ease_out_sine (v : Vec N) : Vec N :=
  let pi_half := from_f32 (Real.pi / 2);
  sin (v * pi_half)

/-- `ease_in_out_sine` (default method). -/
def ease_in_out_sine (v : Vec N) : Vec N :=
  let cos_val := cos (v * from_f32 Real.pi);
  mul_add cos_val (from_f32 (-0.5)) (from_f32 0.5)

/-- `ease_in_circ` (default method). -/
def ease_in_circ (v : Vec N) : Vec N :=
  let one := from_f32 1.0;
  one - sqrt (one - powi v 2)

/-- `ease_out_circ` (default method). -/
def ease_out_circ (v : Vec N) : Vec N :=
  let one := from_f32 1.0;
  sqrt (one - powi (v - one) 2)

/-- `ease_in_back` (default method). -/
def ease_in_back (v : Vec N) : Vec N :=
  let c1 := from_f32 1.70158;
  let c3 := from_f32 2.70158;
  c3 * powi v 3 - c1 * powi v 2

/-- `ease_out_back` (default method). -/
def ease_out_back (v : Vec N) : Vec N :=
  let c1 := from_f32 1.70158;
  let c3 := from_f32 2.70158;
  let one := from_f32 1.0;
  one + c3 * powi (v - one) 3 + c1 * powi (v - one) 2

/-- SIMD `ease_in_curve`: the curve parameter arrives as a lane vector (a scalar
parameter is splatted by its `CurveParam` impl, a vector parameter passes through). -/
def ease_in_curve (v curve : Vec N) : Vec N :=
  let c := curve;
  let abs_curve := abs c;
  let mask := simd_lt abs_curve (from_f32 0.001);
  let grow := exp c;
  let a := from_f32 1.0 / (from_f32 1.0 - grow);
  let normal := a - a * powf grow v;
  select mask v normal

/-- SIMD `ease_out_curve`: `1 - ease_in_curve (1 - self)`. -/
def ease_out_curve (v curve : Vec N) : Vec N :=
  let one := from_f32 1.0;
  one - ease_in_curve (one - v) curve

/-- SIMD `ease_in_out_curve`. -/
def ease_in_out_curve (v curve : Vec N) : Vec N :=
  let half := from_f32 0.5;
  let mask := simd_lt v half;
  let lower_half := ease_in_curve (double v) curve * half;
  let upper_half := half + ease_out_curve (double (v - half)) curve * half;
  select mask lower_half upper_half

/-! ### Evaluation lemmas for the SIMD layer -/

theorem powi_two_eq (v : Vec N) : powi v 2 = v * v := by
  simp [powi]

theorem powi_three_eq (v : Vec N) : powi v 3 = v * (v * v) := by
  simp [powi]

theorem powi_four_eq (v : Vec N) : powi v 4 = v * v * (v * v) := by
  simp [powi]

theorem powi_five_eq (v : Vec N) : powi v 5 = v * (v * v * (v * v)) := by
  simp [powi]

theorem select_apply (m : Fin N → Prop) (a b : Vec N) (i : Fin N) :
    select m a b i = @ite _ (m i) (Classical.propDecidable _) (a i) (b i) := rfl

end Simd

/-! ### Scalar `powi` at the exponents the formulas use -/

theorem powi_two (x : ℝ) : powi x 2 = x ^ (2 : ℕ) := by rw [powi]; exact zpow_ofNat x 2

theorem powi_three (x : ℝ) : powi x 3 = x ^ (3 : ℕ) := by rw [powi]; exact zpow_ofNat x 3

theorem powi_four (x : ℝ) : powi x 4 = x ^ (4 : ℕ) := by rw [powi]; exact zpow_ofNat x 4

theorem powi_five (x : ℝ) : powi x 5 = x ^ (5 : ℕ) := by rw [powi]; exact zpow_ofNat x 5

/-! ## Per-lane agreement of the SIMD and scalar specializations

For each named easing function, the SIMD form applied to a splatted vector produces
in each lane the value of the scalar form (exactly, over `ℝ`). -/

theorem lane_ease_in_quad {N : ℕ} (t : ℝ) (i : Fin N) :
    Simd.ease_in_quad (Simd.splat t) i = ease_in_quad t := by
  simp only [Simd.ease_in_quad, ease_in_quad, Simd.ease_in_pow, ease_in_pow,
    Simd.powi_two_eq, powi_two, Simd.splat, Pi.mul_apply]
  ring

theorem lane_ease_out_quad {N : ℕ} (t : ℝ) (i : Fin N) :
    Simd.ease_out_quad (Simd.splat t) i = ease_out_quad t := by
  simp only [Simd.ease_out_quad, ease_out_quad, Simd.ease_out_pow, ease_out_pow,
    Simd.powi_two_eq, powi_two, Simd.splat, Simd.from_f32, from_f32_eq, lit_zero, lit_one, lit_two, lit_eight, lit_ten, lit_sixteen, lit_twenty,
    Pi.mul_apply, Pi.sub_apply]
  ring

theorem lane_ease_in_cubic {N : ℕ} (t : ℝ) (i : Fin N) :
    Simd.ease_in_cubic (Simd.splat t) i = ease_in_cubic t := by
  simp only [Simd.ease_in_cubic, ease_in_cubic, Simd.ease_in_pow, ease_in_pow,
    Simd.powi_three_eq, powi_three, Simd.splat, Pi.mul_apply]
  ring

theorem lane_ease_out_cubic {N : ℕ} (t : ℝ) (i : Fin N) :
    Simd.ease_out_cubic (Simd.splat t) i = ease_out_cubic t := by
  simp only [Simd.ease_out_cubic, ease_out_cubic, Simd.ease_out_pow, ease_out_pow,
    Simd.powi_three_eq, powi_three, Simd.splat, Simd.from_f32, from_f32_eq, lit_zero, lit_one, lit_two, lit_eight, lit_ten, lit_sixteen, lit_twenty,
    Pi.mul_apply, Pi.sub_apply]
  ring

theorem lane_ease_in_quart {N : ℕ} (t : ℝ) (i : Fin N) :
    Simd.ease_in_quart (Simd.splat t) i = ease_in_quart t := by
  simp only [Simd.ease_in_quart, ease_in_quart, Simd.ease_in_pow, ease_in_pow,
    Simd.powi_four_eq, powi_four, Simd.splat, Pi.mul_apply]
  ring

theorem lane_ease_out_quart {N : ℕ} (t : ℝ) (i : Fin N) :
    Simd.ease_out_quart (Simd.splat t) i = ease_out_quart t := by
  simp only [Simd.ease_out_quart, ease_out_quart, Simd.ease_out_pow, ease_out_pow,
    Simd.powi_four_eq, powi_four, Simd.splat, Simd.from_f32, from_f32_eq, lit_zero, lit_one, lit_two, lit_eight, lit_ten, lit_sixteen, lit_twenty,
    Pi.mul_apply, Pi.sub_apply]
  ring

theorem lane_ease_in_quint {N : ℕ} (t : ℝ) (i : Fin N) :
    Simd.ease_in_quint (Simd.splat t) i = ease_in_quint t := by
  simp only [Simd.ease_in_quint, ease_in_quint, Simd.ease_in_pow, ease_in_pow,
    Simd.powi_five_eq, powi_five, Simd.splat, Pi.mul_apply]
  ring

theorem lane_ease_out_quint {N : ℕ} (t : ℝ) (i : Fin N) :
    Simd.ease_out_quint (Simd.splat t) i = ease_out_quint t := by
  simp only [Simd.ease_out_quint, ease_out_quint, Simd.ease_out_pow, ease_out_pow,
    Simd.powi_five_eq, powi_five, Simd.splat, Simd.from_f32, from_f32_eq, lit_zero, lit_one, lit_two, lit_eight, lit_ten, lit_sixteen, lit_twenty,
    Pi.mul_apply, Pi.sub_apply]
  ring

theorem lane_ease_in_out_quad {N : ℕ} (t : ℝ) (i : Fin N) :
    Simd.ease_in_out_quad (Simd.splat t) i = ease_in_out_quad t := by
  simp only [Simd.ease_in_out_quad, ease_in_out_quad, Simd.select_apply, Simd.simd_lt,
    Simd.splat, Simd.from_f32, from_f32_eq, lit_zero, lit_one, lit_two, lit_eight, lit_ten, lit_sixteen, lit_twenty, Simd.double, Simd.powi_two_eq, powi_two,
    Pi.add_apply, Pi.sub_apply, Pi.mul_apply]
  split_ifs <;> ring

theorem lane_ease_in_out_cubic {N : ℕ} (t : ℝ) (i : Fin N) :
    Simd.ease_in_out_cubic (Simd.splat t) i = ease_in_out_cubic t := by
  simp only [Simd.ease_in_out_cubic, ease_in_out_cubic, Simd.select_apply, Simd.simd_lt,
    Simd.splat, Simd.from_f32, from_f32_eq, lit_zero, lit_one, lit_two, lit_eight, lit_ten, lit_sixteen, lit_twenty, Simd.double, double, Simd.powi_three_eq,
    powi_three, Pi.add_apply, Pi.sub_apply, Pi.mul_apply]
  split_ifs <;> ring

theorem lane_ease_in_out_quart {N : ℕ} (t : ℝ) (i : Fin N) :
    Simd.ease_in_out_quart (Simd.splat t) i = ease_in_out_quart t := by
  simp only [Simd.ease_in_out_quart, ease_in_out_quart, Simd.select_apply, Simd.simd_lt,
    Simd.splat, Simd.from_f32, from_f32_eq, lit_zero, lit_one, lit_two, lit_eight, lit_ten, lit_sixteen, lit_twenty, Simd.double, double, Simd.powi_four_eq,
    powi_four, Pi.add_apply, Pi.sub_apply, Pi.mul_apply]
  split_ifs <;> ring

theorem lane_ease_in_out_quint {N : ℕ} (t : ℝ) (i : Fin N) :
    Simd.ease_in_out_quint (Simd.splat t) i = ease_in_out_quint t := by
  simp only [Simd.ease_in_out_quint, ease_in_out_quint, Simd.select_apply, Simd.simd_lt,
    Simd.splat, Simd.from_f32, from_f32_eq, lit_zero, lit_one, lit_two, lit_eight, lit_ten, lit_sixteen, lit_twenty, Simd.double, double, Simd.powi_five_eq,
    powi_five, Pi.add_apply, Pi.sub_apply, Pi.mul_apply]
  split_ifs <;> ring

theorem lane_ease_in_sine {N : ℕ} (t : ℝ) (i : Fin N) :
    Simd.ease_in_sine (Simd.splat t) i = ease_in_sine t := by
  simp only [Simd.ease_in_sine, ease_in_sine, Simd.cos, Simd.splat, Simd.from_f32,
    from_f32_eq, lit_zero, lit_one, lit_two, lit_eight, lit_ten, lit_sixteen, lit_twenty, Pi.sub_apply, Pi.mul_apply]

theorem lane_ease_out_sine {N : ℕ} (t : ℝ) (i : Fin N) :
    Simd.ease_out_sine (Simd.splat t) i = ease_out_sine t := by
  simp only [Simd.ease_out_sine, ease_out_sine, Simd.sin, Simd.splat, Simd.from_f32,
    from_f32_eq, lit_zero, lit_one, lit_two, lit_eight, lit_ten, lit_sixteen, lit_twenty, Pi.mul_apply]

theorem lane_ease_in_out_sine {N : ℕ} (t : ℝ) (i : Fin N) :
    Simd.ease_in_out_sine (Simd.splat t) i = ease_in_out_sine t := by
  simp only [Simd.ease_in_out_sine, ease_in_out_sine, Simd.cos, Simd.mul_add, mul_add,
    Simd.splat, Simd.from_f32, from_f32_eq, lit_zero, lit_one, lit_two, lit_eight, lit_ten, lit_sixteen, lit_twenty, Pi.add_apply, Pi.mul_apply, Pi.neg_apply]

theorem lane_ease_in_circ {N : ℕ} (t : ℝ) (i : Fin N) :
    Simd.ease_in_circ (Simd.splat t) i = ease_in_circ t := by
  simp only [Simd.ease_in_circ, ease_in_circ, Simd.sqrt, Simd.splat, Simd.from_f32,
    from_f32_eq, lit_zero, lit_one, lit_two, lit_eight, lit_ten, lit_sixteen, lit_twenty, Simd.powi_two_eq, powi_two, Pi.sub_apply, Pi.mul_apply]
  ring_nf

theorem lane_ease_out_circ {N : ℕ} (t : ℝ) (i : Fin N) :
    Simd.ease_out_circ (Simd.splat t) i = ease_out_circ t := by
  simp only [Simd.ease_out_circ, ease_out_circ, Simd.sqrt, Simd.splat, Simd.from_f32,
    from_f32_eq, lit_zero, lit_one, lit_two, lit_eight, lit_ten, lit_sixteen, lit_twenty, Simd.powi_two_eq, powi_two, Pi.sub_apply, Pi.mul_apply]
  ring_nf

theorem lane_ease_in_out_circ {N : ℕ} (t : ℝ) (i : Fin N) :
    Simd.ease_in_out_circ (Simd.splat t) i = ease_in_out_circ t := by
  simp only [Simd.ease_in_out_circ, ease_in_out_circ, Simd.select_apply, Simd.simd_lt,
    Simd.sqrt, Simd.splat, Simd.from_f32, from_f32_eq, lit_zero, lit_one, lit_two, lit_eight, lit_ten, lit_sixteen, lit_twenty, Simd.double, double,
    Simd.powi_two_eq, powi_two, Pi.add_apply, Pi.sub_apply, Pi.mul_apply]
  split_ifs <;> ring_nf

theorem lane_ease_in_back {N : ℕ} (t : ℝ) (i : Fin N) :
    Simd.ease_in_back (Simd.splat t) i = ease_in_back t := by
  simp only [Simd.ease_in_back, ease_in_back, Simd.splat, Simd.from_f32, from_f32_eq, lit_zero, lit_one, lit_two, lit_eight, lit_ten, lit_sixteen, lit_twenty,
    Simd.powi_two_eq, powi_two, Simd.powi_three_eq, powi_three, Pi.sub_apply, Pi.mul_apply]
  ring

theorem lane_ease_out_back {N : ℕ} (t : ℝ) (i : Fin N) :
    Simd.ease_out_back (Simd.splat t) i = ease_out_back t := by
  simp only [Simd.ease_out_back, ease_out_back, Simd.splat, Simd.from_f32, from_f32_eq, lit_zero, lit_one, lit_two, lit_eight, lit_ten, lit_sixteen, lit_twenty,
    Simd.powi_two_eq, powi_two, Simd.powi_three_eq, powi_three, Pi.add_apply, Pi.sub_apply,
    Pi.mul_apply]
  ring

theorem lane_ease_in_out_back {N : ℕ} (t : ℝ) (i : Fin N) :
    Simd.ease_in_out_back (Simd.splat t) i = ease_in_out_back t := by
  simp only [Simd.ease_in_out_back, ease_in_out_back, Simd.select_apply, Simd.simd_lt,
    Simd.splat, Simd.from_f32, from_f32_eq, lit_zero, lit_one, lit_two, lit_eight, lit_ten, lit_sixteen, lit_twenty, Simd.double, double, Simd.mul_add, mul_add,
    Simd.powi_two_eq, powi_two, Pi.add_apply, Pi.sub_apply, Pi.mul_apply, Pi.neg_apply]
  split_ifs <;> ring

theorem lane_ease_out_bounce {N : ℕ} (t : ℝ) (i : Fin N) :
    Simd.ease_out_bounce (Simd.splat t) i = ease_out_bounce t := by
  simp only [Simd.ease_out_bounce, ease_out_bounce, Simd.select_apply, Simd.simd_lt,
    Simd.splat, Simd.from_f32, from_f32_eq, lit_zero, lit_one, lit_two, lit_eight, lit_ten, lit_sixteen, lit_twenty, Simd.mul_add, mul_add,
    Pi.add_apply, Pi.sub_apply, Pi.mul_apply]

theorem lane_ease_in_bounce {N : ℕ} (t : ℝ) (i : Fin N) :
    Simd.ease_in_bounce (Simd.splat t) i = ease_in_bounce t := by
  simp only [Simd.ease_in_bounce, ease_in_bounce, Simd.ease_out_bounce, ease_out_bounce,
    Simd.select_apply, Simd.simd_lt, Simd.splat, Simd.from_f32, from_f32_eq, lit_zero, lit_one, lit_two, lit_eight, lit_ten, lit_sixteen, lit_twenty,
    Simd.mul_add, mul_add, Pi.add_apply, Pi.sub_apply, Pi.mul_apply]

theorem lane_ease_in_out_bounce {N : ℕ} (t : ℝ) (i : Fin N) :
    Simd.ease_in_out_bounce (Simd.splat t) i = ease_in_out_bounce t := by
  simp only [Simd.ease_in_out_bounce, ease_in_out_bounce, Simd.ease_out_bounce,
    ease_out_bounce, Simd.select_apply, Simd.simd_lt, Simd.splat, Simd.from_f32,
    from_f32_eq, lit_zero, lit_one, lit_two, lit_eight, lit_ten, lit_sixteen, lit_twenty, Simd.double, double, Simd.mul_add, mul_add,
    Pi.add_apply, Pi.sub_apply, Pi.mul_apply]
  split_ifs <;> ring

theorem lane_ease_in_expo {N : ℕ} (t : ℝ) (i : Fin N) :
    Simd.ease_in_expo (Simd.splat t) i = ease_in_expo t := by
  simp only [Simd.ease_in_expo, ease_in_expo, Simd.select_apply, Simd.simd_eq,
    Simd.splat, Simd.from_f32, from_f32_eq, lit_zero, lit_one, lit_two, lit_eight, lit_ten, lit_sixteen, lit_twenty, Simd.exp, Simd.ln2, Simd.mul_add, mul_add,
    powf, Pi.add_apply, Pi.mul_apply, Pi.neg_apply]

theorem lane_ease_out_expo {N : ℕ} (t : ℝ) (i : Fin N) :
    Simd.ease_out_expo (Simd.splat t) i = ease_out_expo t := by
  simp only [Simd.ease_out_expo, ease_out_expo, Simd.select_apply, Simd.simd_eq,
    Simd.splat, Simd.from_f32, from_f32_eq, lit_zero, lit_one, lit_two, lit_eight, lit_ten, lit_sixteen, lit_twenty, Simd.exp, Simd.ln2, Simd.mul_add, mul_add,
    powf, Pi.add_apply, Pi.mul_apply, Pi.neg_apply]

theorem lane_ease_in_out_expo {N : ℕ} (t : ℝ) (i : Fin N) :
    Simd.ease_in_out_expo (Simd.splat t) i = ease_in_out_expo t := by
  simp only [Simd.ease_in_out_expo, ease_in_out_expo, Simd.select_apply, Simd.simd_eq,
    Simd.simd_lt, Simd.splat, Simd.from_f32, from_f32_eq, lit_zero, lit_one, lit_two, lit_eight, lit_ten, lit_sixteen, lit_twenty, Simd.exp, Simd.ln2,
    Simd.mul_add, mul_add, powf, Pi.add_apply, Pi.mul_apply, Pi.neg_apply]
  split_ifs <;> ring_nf

theorem lane_ease_in_elastic {N : ℕ} (t : ℝ) (i : Fin N) :
    Simd.ease_in_elastic (Simd.splat t) i = ease_in_elastic t := by
  simp only [Simd.ease_in_elastic, ease_in_elastic, Simd.select_apply, Simd.simd_eq,
    Simd.splat, Simd.from_f32, from_f32_eq, lit_zero, lit_one, lit_two, lit_eight, lit_ten, lit_sixteen, lit_twenty, Simd.exp, Simd.sin, Simd.ln2,
    Simd.mul_add, mul_add, powf, Pi.add_apply, Pi.mul_apply, Pi.neg_apply]
  split_ifs <;> ring_nf

theorem lane_ease_out_elastic {N : ℕ} (t : ℝ) (i : Fin N) :
    Simd.ease_out_elastic (Simd.splat t) i = ease_out_elastic t := by
  simp only [Simd.ease_out_elastic, ease_out_elastic, Simd.select_apply, Simd.simd_eq,
    Simd.splat, Simd.from_f32, from_f32_eq, lit_zero, lit_one, lit_two, lit_eight, lit_ten, lit_sixteen, lit_twenty, Simd.exp, Simd.sin, Simd.ln2,
    Simd.mul_add, mul_add, powf, Pi.add_apply, Pi.mul_apply, Pi.neg_apply]
  split_ifs <;> ring_nf

theorem lane_ease_in_out_elastic {N : ℕ} (t : ℝ) (i : Fin N) :
    Simd.ease_in_out_elastic (Simd.splat t) i = ease_in_out_elastic t := by
  simp only [Simd.ease_in_out_elastic, ease_in_out_elastic, Simd.select_apply,
    Simd.simd_eq, Simd.simd_lt, Simd.splat, Simd.from_f32, from_f32_eq, lit_zero, lit_one, lit_two, lit_eight, lit_ten, lit_sixteen, lit_twenty, Simd.exp,
    Simd.sin, Simd.ln2, Simd.mul_add, mul_add, powf,
    Pi.add_apply, Pi.mul_apply, Pi.neg_apply]
  split_ifs <;> ring_nf

theorem lane_ease_in_curve {N : ℕ} (t : ℝ) (c : Vec N) (i : Fin N) :
    Simd.ease_in_curve (Simd.splat t) c i = ease_in_curve t (c i) := by
  simp only [Simd.ease_in_curve, ease_in_curve, Simd.select_apply, Simd.simd_lt,
    Simd.abs, Simd.splat, Simd.from_f32, from_f32_eq, lit_zero, lit_one, lit_two, lit_eight, lit_ten, lit_sixteen, lit_twenty, Simd.exp, Simd.ln, Simd.powf,
    powf, Pi.sub_apply, Pi.mul_apply, Pi.div_apply]

theorem lane_ease_out_curve {N : ℕ} (t : ℝ) (c : Vec N) (i : Fin N) :
    Simd.ease_out_curve (Simd.splat t) c i = ease_out_curve t (c i) := by
  simp only [Simd.ease_out_curve, ease_out_curve, Simd.ease_in_curve, ease_in_curve,
    Simd.select_apply, Simd.simd_lt, Simd.abs, Simd.splat, Simd.from_f32, from_f32_eq, lit_zero, lit_one, lit_two, lit_eight, lit_ten, lit_sixteen, lit_twenty,
    Simd.exp, Simd.ln, Simd.powf, powf, Pi.sub_apply, Pi.mul_apply, Pi.div_apply]

theorem lane_ease_in_out_curve {N : ℕ} (t : ℝ) (c : Vec N) (i : Fin N) :
    Simd.ease_in_out_curve (Simd.splat t) c i = ease_in_out_curve t (c i) := by
  simp only [Simd.ease_in_out_curve, ease_in_out_curve, Simd.ease_out_curve,
    ease_out_curve, Simd.ease_in_curve, ease_in_curve, Simd.select_apply, Simd.simd_lt,
    Simd.abs, Simd.splat, Simd.from_f32, from_f32_eq, lit_zero, lit_one, lit_two, lit_eight, lit_ten, lit_sixteen, lit_twenty, Simd.double, double, Simd.exp,
    Simd.ln, Simd.powf, powf, Pi.add_apply, Pi.sub_apply, Pi.mul_apply, Pi.div_apply]

/-! ## Endpoint behaviour: `f 0 = 0` and `f 1 = 1` -/

/-- The boundary property of the spec, for one scalar easing function. -/
abbrev bothEndpoints (f : ℝ → ℝ) : Prop := f 0 = 0 ∧ f 1 = 1

theorem ends_ease_in_quad : bothEndpoints ease_in_quad := by
  constructor <;> norm_num [ease_in_quad, ease_in_pow, powi_two]

theorem ends_ease_out_quad : bothEndpoints ease_out_quad := by
  constructor <;> norm_num [ease_out_quad, ease_out_pow, powi_two]

theorem ends_ease_in_cubic : bothEndpoints ease_in_cubic := by
  constructor <;> norm_num [ease_in_cubic, ease_in_pow, powi_three]

theorem ends_ease_out_cubic : bothEndpoints ease_out_cubic := by
  constructor <;> norm_num [ease_out_cubic, ease_out_pow, powi_three]

theorem ends_ease_in_quart : bothEndpoints ease_in_quart := by
  constructor <;> norm_num [ease_in_quart, ease_in_pow, powi_four]

theorem ends_ease_out_quart : bothEndpoints ease_out_quart := by
  constructor <;> norm_num [ease_out_quart, ease_out_pow, powi_four]

theorem ends_ease_in_quint : bothEndpoints ease_in_quint := by
  constructor <;> norm_num [ease_in_quint, ease_in_pow, powi_five]

theorem ends_ease_out_quint : bothEndpoints ease_out_quint := by
  constructor <;> norm_num [ease_out_quint, ease_out_pow, powi_five]

theorem ends_ease_in_out_quad : bothEndpoints ease_in_out_quad := by
  constructor <;> norm_num [ease_in_out_quad, powi_two]

theorem ends_ease_in_out_cubic : bothEndpoints ease_in_out_cubic := by
  constructor <;> norm_num [ease_in_out_cubic, powi_three, double]

theorem ends_ease_in_out_quart : bothEndpoints ease_in_out_quart := by
  constructor <;> norm_num [ease_in_out_quart, powi_four, double]

theorem ends_ease_in_out_quint : bothEndpoints ease_in_out_quint := by
  constructor <;> norm_num [ease_in_out_quint, powi_five, double]

theorem ends_ease_in_sine : bothEndpoints ease_in_sine := by
  constructor <;> norm_num [ease_in_sine, Real.cos_pi_div_two]

theorem ends_ease_out_sine : bothEndpoints ease_out_sine := by
  constructor <;> norm_num [ease_out_sine, Real.sin_pi_div_two]

theorem ends_ease_in_out_sine : bothEndpoints ease_in_out_sine := by
  constructor <;> norm_num [ease_in_out_sine, mul_add, Real.cos_pi]

theorem ends_ease_in_circ : bothEndpoints ease_in_circ := by
  constructor <;> norm_num [ease_in_circ, powi_two, Real.sqrt_one]

theorem ends_ease_out_circ : bothEndpoints ease_out_circ := by
  constructor <;> norm_num [ease_out_circ, powi_two, Real.sqrt_one]

theorem ends_ease_in_out_circ : bothEndpoints ease_in_out_circ := by
  constructor <;> norm_num [ease_in_out_circ, powi_two, double, Real.sqrt_one]

theorem ends_ease_in_back : bothEndpoints ease_in_back := by
  constructor <;> norm_num [ease_in_back, powi_two, powi_three]

theorem ends_ease_out_back : bothEndpoints ease_out_back := by
  constructor <;> norm_num [ease_out_back, powi_two, powi_three]

theorem ends_ease_in_out_back : bothEndpoints ease_in_out_back := by
  constructor <;> norm_num [ease_in_out_back, powi_two, double, mul_add]

theorem ends_ease_out_bounce : bothEndpoints ease_out_bounce := by
  constructor <;> norm_num [ease_out_bounce, mul_add]

theorem ends_ease_in_bounce : bothEndpoints ease_in_bounce := by
  constructor <;> norm_num [ease_in_bounce, ease_out_bounce, mul_add]

theorem ends_ease_in_out_bounce : bothEndpoints ease_in_out_bounce := by
  constructor <;> norm_num [ease_in_out_bounce, ease_out_bounce, mul_add, double]

theorem ends_ease_in_expo : bothEndpoints ease_in_expo := by
  constructor <;> norm_num [ease_in_expo, powf, mul_add, Real.exp_zero]

theorem ends_ease_out_expo : bothEndpoints ease_out_expo := by
  constructor <;> norm_num [ease_out_expo, powf, mul_add, Real.exp_zero]

theorem ends_ease_in_out_expo : bothEndpoints ease_in_out_expo := by
  constructor <;> norm_num [ease_in_out_expo]

theorem ends_ease_in_elastic : bothEndpoints ease_in_elastic := by
  constructor <;> norm_num [ease_in_elastic]

theorem ends_ease_out_elastic : bothEndpoints ease_out_elastic := by
  constructor <;> norm_num [ease_out_elastic]

theorem ends_ease_in_out_elastic : bothEndpoints ease_in_out_elastic := by
  constructor <;> norm_num [ease_in_out_elastic]

theorem ease_in_curve_zero (c : ℝ) : ease_in_curve 0 c = 0 := by
  simp only [ease_in_curve]
  by_cases h : |c| < from_f32 0.001
  · rw [if_pos h]
  · rw [if_neg h]
    simp [powf, Real.exp_zero]

theorem curve_guard_ne_zero {c : ℝ} (h : ¬ |c| < from_f32 0.001) :
    (1 : ℝ) - Real.exp c ≠ 0 := by
  have hc : c ≠ 0 := by
    intro h0
    rw [h0] at h
    norm_num at h
  have hg : Real.exp c ≠ 1 := by
    rw [← Real.exp_zero]
    exact fun hh => hc (Real.exp_eq_exp.mp hh)
  exact sub_ne_zero.mpr (Ne.symm hg)

theorem ease_in_curve_one (c : ℝ) : ease_in_curve 1 c = 1 := by
  simp only [ease_in_curve]
  by_cases h : |c| < from_f32 0.001
  · rw [if_pos h]
  · rw [if_neg h]
    have hne := curve_guard_ne_zero h
    simp only [powf, Real.log_exp, one_mul]
    field_simp

theorem ends_ease_in_curve (c : ℝ) : bothEndpoints (fun t => ease_in_curve t c) :=
  ⟨ease_in_curve_zero c, ease_in_curve_one c⟩

theorem ends_ease_out_curve (c : ℝ) : bothEndpoints (fun t => ease_out_curve t c) := by
  constructor
  · show ease_out_curve 0 c = 0
    rw [ease_out_curve, sub_zero, ease_in_curve_one, sub_self]
  · show ease_out_curve 1 c = 1
    rw [ease_out_curve, sub_self, ease_in_curve_zero, sub_zero]

theorem ends_ease_in_out_curve (c : ℝ) : bothEndpoints (fun t => ease_in_out_curve t c) := by
  constructor
  · show ease_in_out_curve 0 c = 0
    rw [ease_in_out_curve]
    rw [if_pos (by norm_num : (0:ℝ) < from_f32 0.5)]
    have h0 : double (0:ℝ) = 0 := by norm_num [double]
    rw [h0, ease_in_curve_zero, zero_mul]
  · show ease_in_out_curve 1 c = 1
    rw [ease_in_out_curve]
    rw [if_neg (by norm_num : ¬ (1:ℝ) < from_f32 0.5)]
    have h1 : double ((1:ℝ) - from_f32 0.5) = 1 := by norm_num [double]
    have hout : ease_out_curve 1 c = 1 := (ends_ease_out_curve c).2
    rw [h1, hout]
    norm_num

/-- The boundary property for one lane of a SIMD easing function. -/
abbrev laneEndpoints {N : ℕ} (F : Vec N → Vec N) (i : Fin N) : Prop :=
  F (Simd.splat 0) i = 0 ∧ F (Simd.splat 1) i = 1

/-- C1: for every named easing function, every input `t` and every lane count `N`,
the SIMD implementation applied to a vector with all lanes equal to `t` produces in
each lane exactly the value of the scalar implementation (over the exact real model,
hence well within the 1e-6 float tolerance); the curve-parametrized functions agree
lane-wise for an arbitrary curve-parameter vector. In particular the scalar and
vector forms of `ease_in_out_back`, which place the `0.5` factor differently, are
mathematically equivalent. -/
theorem C1_simd_matches_scalar :
    ∀ (N : ℕ) (t : ℝ) (c : Vec N) (i : Fin N),
      Simd.ease_in_quad (Simd.splat t) i = ease_in_quad t ∧
      Simd.ease_out_quad (Simd.splat t) i = ease_out_quad t ∧
      Simd.ease_in_out_quad (Simd.splat t) i = ease_in_out_quad t ∧
      Simd.ease_in_cubic (Simd.splat t) i = ease_in_cubic t ∧
      Simd.ease_out_cubic (Simd.splat t) i = ease_out_cubic t ∧
      Simd.ease_in_out_cubic (Simd.splat t) i = ease_in_out_cubic t ∧
      Simd.ease_in_quart (Simd.splat t) i = ease_in_quart t ∧
      Simd.ease_out_quart (Simd.splat t) i = ease_out_quart t ∧
      Simd.ease_in_out_quart (Simd.splat t) i = ease_in_out_quart t ∧
      Simd.ease_in_quint (Simd.splat t) i = ease_in_quint t ∧
      Simd.ease_out_quint (Simd.splat t) i = ease_out_quint t ∧
      Simd.ease_in_out_quint (Simd.splat t) i = ease_in_out_quint t ∧
      Simd.ease_in_sine (Simd.splat t) i = ease_in_sine t ∧
      Simd.ease_out_sine (Simd.splat t) i = ease_out_sine t ∧
      Simd.ease_in_out_sine (Simd.splat t) i = ease_in_out_sine t ∧
      Simd.ease_in_circ (Simd.splat t) i = ease_in_circ t ∧
      Simd.ease_out_circ (Simd.splat t) i = ease_out_circ t ∧
      Simd.ease_in_out_circ (Simd.splat t) i = ease_in_out_circ t ∧
      Simd.ease_in_back (Simd.splat t) i = ease_in_back t ∧
      Simd.ease_out_back (Simd.splat t) i = ease_out_back t ∧
      Simd.ease_in_out_back (Simd.splat t) i = ease_in_out_back t ∧
      Simd.ease_in_bounce (Simd.splat t) i = ease_in_bounce t ∧
      Simd.ease_out_bounce (Simd.splat t) i = ease_out_bounce t ∧
      Simd.ease_in_out_bounce (Simd.splat t) i = ease_in_out_bounce t ∧
      Simd.ease_in_expo (Simd.splat t) i = ease_in_expo t ∧
      Simd.ease_out_expo (Simd.splat t) i = ease_out_expo t ∧
      Simd.ease_in_out_expo (Simd.splat t) i = ease_in_out_expo t ∧
      Simd.ease_in_elastic (Simd.splat t) i = ease_in_elastic t ∧
      Simd.ease_out_elastic (Simd.splat t) i = ease_out_elastic t ∧
      Simd.ease_in_out_elastic (Simd.splat t) i = ease_in_out_elastic t ∧
      Simd.ease_in_curve (Simd.splat t) c i = ease_in_curve t (c i) ∧
      Simd.ease_out_curve (Simd.splat t) c i = ease_out_curve t (c i) ∧
      Simd.ease_in_out_curve (Simd.splat t) c i = ease_in_out_curve t (c i) :=
  fun _N t c i =>
    ⟨lane_ease_in_quad t i, lane_ease_out_quad t i, lane_ease_in_out_quad t i,
      lane_ease_in_cubic t i, lane_ease_out_cubic t i, lane_ease_in_out_cubic t i,
      lane_ease_in_quart t i, lane_ease_out_quart t i, lane_ease_in_out_quart t i,
      lane_ease_in_quint t i, lane_ease_out_quint t i, lane_ease_in_out_quint t i,
      lane_ease_in_sine t i, lane_ease_out_sine t i, lane_ease_in_out_sine t i,
      lane_ease_in_circ t i, lane_ease_out_circ t i, lane_ease_in_out_circ t i,
      lane_ease_in_back t i, lane_ease_out_back t i, lane_ease_in_out_back t i,
      lane_ease_in_bounce t i, lane_ease_out_bounce t i, lane_ease_in_out_bounce t i,
      lane_ease_in_expo t i, lane_ease_out_expo t i, lane_ease_in_out_expo t i,
      lane_ease_in_elastic t i, lane_ease_out_elastic t i, lane_ease_in_out_elastic t i,
      lane_ease_in_curve t c i, lane_ease_out_curve t c i, lane_ease_in_out_curve t c i⟩

/-- C2: every named easing function maps `0` to `0` and `1` to `1`, in the scalar
representation and in each lane of the SIMD representation (exactly over the real
model, hence within the float tolerances); the back family satisfies this at the
exact endpoints, and the curve family for every curve parameter. -/
theorem C2_endpoint_values :
    ∀ (c : ℝ) (N : ℕ) (i : Fin N),
      bothEndpoints ease_in_quad ∧ bothEndpoints ease_out_quad ∧
      bothEndpoints ease_in_out_quad ∧
      bothEndpoints ease_in_cubic ∧ bothEndpoints ease_out_cubic ∧
      bothEndpoints ease_in_out_cubic ∧
      bothEndpoints ease_in_quart ∧ bothEndpoints ease_out_quart ∧
      bothEndpoints ease_in_out_quart ∧
      bothEndpoints ease_in_quint ∧ bothEndpoints ease_out_quint ∧
      bothEndpoints ease_in_out_quint ∧
      bothEndpoints ease_in_sine ∧ bothEndpoints ease_out_sine ∧
      bothEndpoints ease_in_out_sine ∧
      bothEndpoints ease_in_circ ∧ bothEndpoints ease_out_circ ∧
      bothEndpoints ease_in_out_circ ∧
      bothEndpoints ease_in_back ∧ bothEndpoints ease_out_back ∧
      bothEndpoints ease_in_out_back ∧
      bothEndpoints ease_in_bounce ∧ bothEndpoints ease_out_bounce ∧
      bothEndpoints ease_in_out_bounce ∧
      bothEndpoints ease_in_expo ∧ bothEndpoints ease_out_expo ∧
      bothEndpoints ease_in_out_expo ∧
      bothEndpoints ease_in_elastic ∧ bothEndpoints ease_out_elastic ∧
      bothEndpoints ease_in_out_elastic ∧
      bothEndpoints (fun t => ease_in_curve t c) ∧
      bothEndpoints (fun t => ease_out_curve t c) ∧
      bothEndpoints (fun t => ease_in_out_curve t c) ∧
      laneEndpoints Simd.ease_in_quad i ∧ laneEndpoints Simd.ease_out_quad i ∧
      laneEndpoints Simd.ease_in_out_quad i ∧
      laneEndpoints Simd.ease_in_cubic i ∧ laneEndpoints Simd.ease_out_cubic i ∧
      laneEndpoints Simd.ease_in_out_cubic i ∧
      laneEndpoints Simd.ease_in_quart i ∧ laneEndpoints Simd.ease_out_quart i ∧
      laneEndpoints Simd.ease_in_out_quart i ∧
      laneEndpoints Simd.ease_in_quint i ∧ laneEndpoints Simd.ease_out_quint i ∧
      laneEndpoints Simd.ease_in_out_quint i ∧
      laneEndpoints Simd.ease_in_sine i ∧ laneEndpoints Simd.ease_out_sine i ∧
      laneEndpoints Simd.ease_in_out_sine i ∧
      laneEndpoints Simd.ease_in_circ i ∧ laneEndpoints Simd.ease_out_circ i ∧
      laneEndpoints Simd.ease_in_out_circ i ∧
      laneEndpoints Simd.ease_in_back i ∧ laneEndpoints Simd.ease_out_back i ∧
      laneEndpoints Simd.ease_in_out_back i ∧
      laneEndpoints Simd.ease_in_bounce i ∧ laneEndpoints Simd.ease_out_bounce i ∧
      laneEndpoints Simd.ease_in_out_bounce i ∧
      laneEndpoints Simd.ease_in_expo i ∧ laneEndpoints Simd.ease_out_expo i ∧
      laneEndpoints Simd.ease_in_out_expo i ∧
      laneEndpoints Simd.ease_in_elastic i ∧ laneEndpoints Simd.ease_out_elastic i ∧
      laneEndpoints Simd.ease_in_out_elastic i ∧
      laneEndpoints (fun v => Simd.ease_in_curve v (Simd.splat c)) i ∧
      laneEndpoints (fun v => Simd.ease_out_curve v (Simd.splat c)) i ∧
      laneEndpoints (fun v => Simd.ease_in_out_curve v (Simd.splat c)) i :=
  fun c _N i =>
    ⟨ends_ease_in_quad, ends_ease_out_quad, ends_ease_in_out_quad,
      ends_ease_in_cubic, ends_ease_out_cubic, ends_ease_in_out_cubic,
      ends_ease_in_quart, ends_ease_out_quart, ends_ease_in_out_quart,
      ends_ease_in_quint, ends_ease_out_quint, ends_ease_in_out_quint,
      ends_ease_in_sine, ends_ease_out_sine, ends_ease_in_out_sine,
      ends_ease_in_circ, ends_ease_out_circ, ends_ease_in_out_circ,
      ends_ease_in_back, ends_ease_out_back, ends_ease_in_out_back,
      ends_ease_in_bounce, ends_ease_out_bounce, ends_ease_in_out_bounce,
      ends_ease_in_expo, ends_ease_out_expo, ends_ease_in_out_expo,
      ends_ease_in_elastic, ends_ease_out_elastic, ends_ease_in_out_elastic,
      ends_ease_in_curve c, ends_ease_out_curve c, ends_ease_in_out_curve c,
      ⟨(lane_ease_in_quad 0 i).trans ends_ease_in_quad.1,
        (lane_ease_in_quad 1 i).trans ends_ease_in_quad.2⟩,
      ⟨(lane_ease_out_quad 0 i).trans ends_ease_out_quad.1,
        (lane_ease_out_quad 1 i).trans ends_ease_out_quad.2⟩,
      ⟨(lane_ease_in_out_quad 0 i).trans ends_ease_in_out_quad.1,
        (lane_ease_in_out_quad 1 i).trans ends_ease_in_out_quad.2⟩,
      ⟨(lane_ease_in_cubic 0 i).trans ends_ease_in_cubic.1,
        (lane_ease_in_cubic 1 i).trans ends_ease_in_cubic.2⟩,
      ⟨(lane_ease_out_cubic 0 i).trans ends_ease_out_cubic.1,
        (lane_ease_out_cubic 1 i).trans ends_ease_out_cubic.2⟩,
      ⟨(lane_ease_in_out_cubic 0 i).trans ends_ease_in_out_cubic.1,
        (lane_ease_in_out_cubic 1 i).trans ends_ease_in_out_cubic.2⟩,
      ⟨(lane_ease_in_quart 0 i).trans ends_ease_in_quart.1,
        (lane_ease_in_quart 1 i).trans ends_ease_in_quart.2⟩,
      ⟨(lane_ease_out_quart 0 i).trans ends_ease_out_quart.1,
        (lane_ease_out_quart 1 i).trans ends_ease_out_quart.2⟩,
      ⟨(lane_ease_in_out_quart 0 i).trans ends_ease_in_out_quart.1,
        (lane_ease_in_out_quart 1 i).trans ends_ease_in_out_quart.2⟩,
      ⟨(lane_ease_in_quint 0 i).trans ends_ease_in_quint.1,
        (lane_ease_in_quint 1 i).trans ends_ease_in_quint.2⟩,
      ⟨(lane_ease_out_quint 0 i).trans ends_ease_out_quint.1,
        (lane_ease_out_quint 1 i).trans ends_ease_out_quint.2⟩,
      ⟨(lane_ease_in_out_quint 0 i).trans ends_ease_in_out_quint.1,
        (lane_ease_in_out_quint 1 i).trans ends_ease_in_out_quint.2⟩,
      ⟨(lane_ease_in_sine 0 i).trans ends_ease_in_sine.1,
        (lane_ease_in_sine 1 i).trans ends_ease_in_sine.2⟩,
      ⟨(lane_ease_out_sine 0 i).trans ends_ease_out_sine.1,
        (lane_ease_out_sine 1 i).trans ends_ease_out_sine.2⟩,
      ⟨(lane_ease_in_out_sine 0 i).trans ends_ease_in_out_sine.1,
        (lane_ease_in_out_sine 1 i).trans ends_ease_in_out_sine.2⟩,
      ⟨(lane_ease_in_circ 0 i).trans ends_ease_in_circ.1,
        (lane_ease_in_circ 1 i).trans ends_ease_in_circ.2⟩,
      ⟨(lane_ease_out_circ 0 i).trans ends_ease_out_circ.1,
        (lane_ease_out_circ 1 i).trans ends_ease_out_circ.2⟩,
      ⟨(lane_ease_in_out_circ 0 i).trans ends_ease_in_out_circ.1,
        (lane_ease_in_out_circ 1 i).trans ends_ease_in_out_circ.2⟩,
      ⟨(lane_ease_in_back 0 i).trans ends_ease_in_back.1,
        (lane_ease_in_back 1 i).trans ends_ease_in_back.2⟩,
      ⟨(lane_ease_out_back 0 i).trans ends_ease_out_back.1,
        (lane_ease_out_back 1 i).trans ends_ease_out_back.2⟩,
      ⟨(lane_ease_in_out_back 0 i).trans ends_ease_in_out_back.1,
        (lane_ease_in_out_back 1 i).trans ends_ease_in_out_back.2⟩,
      ⟨(lane_ease_in_bounce 0 i).trans ends_ease_in_bounce.1,
        (lane_ease_in_bounce 1 i).trans ends_ease_in_bounce.2⟩,
      ⟨(lane_ease_out_bounce 0 i).trans ends_ease_out_bounce.1,
        (lane_ease_out_bounce 1 i).trans ends_ease_out_bounce.2⟩,
      ⟨(lane_ease_in_out_bounce 0 i).trans ends_ease_in_out_bounce.1,
        (lane_ease_in_out_bounce 1 i).trans ends_ease_in_out_bounce.2⟩,
      ⟨(lane_ease_in_expo 0 i).trans ends_ease_in_expo.1,
        (lane_ease_in_expo 1 i).trans ends_ease_in_expo.2⟩,
      ⟨(lane_ease_out_expo 0 i).trans ends_ease_out_expo.1,
        (lane_ease_out_expo 1 i).trans ends_ease_out_expo.2⟩,
      ⟨(lane_ease_in_out_expo 0 i).trans ends_ease_in_out_expo.1,
        (lane_ease_in_out_expo 1 i).trans ends_ease_in_out_expo.2⟩,
      ⟨(lane_ease_in_elastic 0 i).trans ends_ease_in_elastic.1,
        (lane_ease_in_elastic 1 i).trans ends_ease_in_elastic.2⟩,
      ⟨(lane_ease_out_elastic 0 i).trans ends_ease_out_elastic.1,
        (lane_ease_out_elastic 1 i).trans ends_ease_out_elastic.2⟩,
      ⟨(lane_ease_in_out_elastic 0 i).trans ends_ease_in_out_elastic.1,
        (lane_ease_in_out_elastic 1 i).trans ends_ease_in_out_elastic.2⟩,
      ⟨(lane_ease_in_curve 0 (Simd.splat c) i).trans (ease_in_curve_zero c),
        (lane_ease_in_curve 1 (Simd.splat c) i).trans (ease_in_curve_one c)⟩,
      ⟨(lane_ease_out_curve 0 (Simd.splat c) i).trans (ends_ease_out_curve c).1,
        (lane_ease_out_curve 1 (Simd.splat c) i).trans (ends_ease_out_curve c).2⟩,
      ⟨(lane_ease_in_out_curve 0 (Simd.splat c) i).trans (ends_ease_in_out_curve c).1,
        (lane_ease_in_out_curve 1 (Simd.splat c) i).trans (ends_ease_in_out_curve c).2⟩⟩

/-! ## Totality of the SIMD `powi` recursion -/

theorem zpow_nonneg_toNat (x : ℝ) (n : ℤ) (h : 0 ≤ n) : x ^ n = x ^ n.toNat := by
  conv_lhs => rw [← Int.toNat_of_nonneg h]
  exact zpow_natCast x n.toNat

/-- Any derivation of the SIMD `powi` call graph has nonzero exponent: the
recursion can never return from exponent `0` (it calls itself at `0` forever). -/
theorem powi_computes_ne_zero {N : ℕ} {v : Vec N} :
    ∀ {n : ℤ} {r : Vec N}, Simd.PowiComputes v n r → n ≠ 0 := by
  intro n r h
  induction h with
  | one => norm_num
  | even n r hne hmod _hrec ih =>
      intro h0
      subst h0
      exact ih (by norm_num)
  | odd n r hne hmod _hrec _ih =>
      intro h0
      subst h0
      exact hmod (by norm_num)

/-- The SIMD `powi` recursion terminates on every exponent `n ≥ 1` and computes the
lane-wise `n`-th power. -/
theorem powi_computes_pow {N : ℕ} (v : Vec N) :
    ∀ n : ℤ, 1 ≤ n → Simd.PowiComputes v n (fun i => v i ^ n) := by
  suffices h : ∀ k : ℕ, ∀ n : ℤ, 1 ≤ n → n ≤ k →
      Simd.PowiComputes v n (fun i => v i ^ n) by
    intro n hn
    exact h n.toNat n hn (by omega)
  intro k
  induction k with
  | zero => intro n h1 h2; omega
  | succ k ih =>
      intro n h1 h2
      by_cases hone : n = 1
      · subst hone
        have e : (fun i => v i ^ (1 : ℤ)) = v := by
          funext i
          exact zpow_one (v i)
        rw [e]
        exact Simd.PowiComputes.one
      · by_cases heven : n % 2 = 0
        · have h1' : 1 ≤ n / 2 := by omega
          have h2' : n / 2 ≤ k := by omega
          have hrec := ih (n / 2) h1' h2'
          have hstep := Simd.PowiComputes.even n _ hone heven hrec
          have e : ((fun i => v i ^ (n / 2)) * fun i => v i ^ (n / 2) : Vec N) =
              fun i => v i ^ n := by
            funext i
            rw [Pi.mul_apply]
            rw [zpow_nonneg_toNat _ _ (by omega : (0:ℤ) ≤ n / 2),
              zpow_nonneg_toNat _ _ (by omega : (0:ℤ) ≤ n), ← pow_add]
            congr 1
            omega
          rw [e] at hstep
          exact hstep
        · have h1' : 1 ≤ n - 1 := by omega
          have h2' : n - 1 ≤ k := by omega
          have hrec := ih (n - 1) h1' h2'
          have hstep := Simd.PowiComputes.odd n _ hone heven hrec
          have e : (v * fun i => v i ^ (n - 1) : Vec N) = fun i => v i ^ n := by
            funext i
            rw [Pi.mul_apply]
            rw [zpow_nonneg_toNat _ (n - 1) (by omega),
              zpow_nonneg_toNat _ n (by omega)]
            rw [show n.toNat = (n - 1).toNat + 1 by omega, pow_succ]
            ring
          rw [e] at hstep
          exact hstep

/-- C3 (counterexample): the claim fails as stated. At base `2` (any lane count) and
exponent `0`, the SIMD exponentiation-by-squaring recursion never terminates: no
result is related to exponent `0` by its call graph (`0 % 2 == 0` holds and
`0 / 2 = 0`, so the recursion calls itself with exponent `0` forever). -/
theorem C3_powi_diverges_at_zero :
    ¬ ∃ r : Vec 1, Simd.PowiComputes (Simd.splat 2) 0 r := by
  intro hex
  obtain ⟨r, h⟩ := hex
  exact powi_computes_ne_zero h rfl

/-- C3 (amended): scalar `powi` is total and returns `t ^ n` for every `i32`
exponent, and the SIMD exponentiation-by-squaring recursion terminates and returns
the lane-wise `n`-th power for every exponent `n ≥ 1` (for `n ≤ 0` it does not
terminate, see the counterexample). -/
theorem C3_powi_total_for_positive :
    ∀ (N : ℕ) (v : Vec N) (n : ℤ), 1 ≤ n →
      (∀ t : ℝ, powi t n = t ^ n) ∧
      Simd.PowiComputes v n (fun i => v i ^ n) :=
  fun _N v n hn => ⟨fun _t => rfl, powi_computes_pow v n hn⟩

/-- C3 witness: the recursion at exponent `3` computes cubes, e.g. `2 ^ 3 = 8`
lane-wise. -/
theorem C3_powi_total_witness :
    Simd.PowiComputes (Simd.splat 2 : Vec 1) 3 (Simd.splat 8) := by
  have h := (C3_powi_total_for_positive 1 (Simd.splat 2) 3 (by norm_num)).2
  have e : (fun i : Fin 1 => Simd.splat (2:ℝ) i ^ (3:ℤ)) = (Simd.splat 8 : Vec 1) := by
    funext i
    show (2:ℝ) ^ (3:ℤ) = 8
    norm_num
  rw [e] at h
  exact h

/-- C4: with `|curve| < 0.001` the curve easing takes the identity branch: for every
input `t` (of any representation) `ease_in_curve t curve = t` exactly, so the
division by `1 - grow` in the closed form never affects the result. -/
theorem C4_curve_guard_identity :
    ∀ (N : ℕ) (t c : ℝ) (i : Fin N), |c| < 0.001 →
      ease_in_curve t c = t ∧
      Simd.ease_in_curve (Simd.splat t) (Simd.splat c) i = t := by
  intro N t c i h
  have hs : ease_in_curve t c = t := by
    simp only [ease_in_curve]
    rw [if_pos (show |c| < from_f32 0.001 from h)]
  exact ⟨hs, (lane_ease_in_curve t (Simd.splat c) i).trans hs⟩

/-- C4 witness: at `t = 0.25`, `curve = 0.0005`, one lane. -/
theorem C4_curve_guard_witness :
    ease_in_curve 0.25 0.0005 = 0.25 ∧
    Simd.ease_in_curve (Simd.splat 0.25) (Simd.splat 0.0005 : Vec 1)
      ⟨0, by norm_num⟩ = 0.25 :=
  C4_curve_guard_identity 1 0.25 0.0005 ⟨0, by norm_num⟩
    (by rw [abs_lt]; constructor <;> norm_num)

/-! ## Closed forms of the exponential family -/

theorem in_expo_formula (t : ℝ) (ht : t ≠ 0) :
    ease_in_expo t = (2:ℝ) ^ (10 * t - 10) := by
  rw [ease_in_expo, if_neg ht, Real.rpow_def_of_pos (by norm_num : (0:ℝ) < 2)]
  simp only [powf, from_f32_eq, mul_add]
  ring_nf

theorem out_expo_formula (t : ℝ) (ht : t ≠ 1) :
    ease_out_expo t = 1 - (2:ℝ) ^ (-10 * t) := by
  rw [ease_out_expo, if_neg ht, Real.rpow_def_of_pos (by norm_num : (0:ℝ) < 2)]
  simp only [powf, from_f32_eq, mul_add]
  ring_nf

theorem in_out_expo_lower_formula (t : ℝ) (ht : t ≠ 0) (hlt : t < 1/2) :
    ease_in_out_expo t = (2:ℝ) ^ (20 * t - 10) / 2 := by
  rw [ease_in_out_expo, if_neg ht, if_neg (by intro h; rw [h] at hlt; norm_num at hlt),
    if_pos (show t < from_f32 0.5 by simp only [from_f32_eq]; linarith),
    Real.rpow_def_of_pos (by norm_num : (0:ℝ) < 2)]
  simp only [powf, from_f32_eq, mul_add]
  ring_nf

theorem in_out_expo_upper_formula (t : ℝ) (ht : t ≠ 1) (hge : 1/2 ≤ t) :
    ease_in_out_expo t = (2 - (2:ℝ) ^ (-20 * t + 10)) / 2 := by
  rw [ease_in_out_expo, if_neg (by intro h; rw [h] at hge; norm_num at hge), if_neg ht,
    if_neg (show ¬ t < from_f32 0.5 by simp only [from_f32_eq]; intro h; linarith),
    Real.rpow_def_of_pos (by norm_num : (0:ℝ) < 2)]
  simp only [powf, from_f32_eq, mul_add]
  ring_nf

/-- C5: `ease_in_expo` is exactly `0` at `t = 0` and `2 ^ (10t - 10)` elsewhere;
`ease_out_expo` is exactly `1` at `t = 1` and `1 - 2 ^ (-10t)` elsewhere;
`ease_in_out_expo` is exactly `0`/`1` at the exact endpoints and otherwise
`2 ^ (20t - 10) / 2` below `0.5` and `(2 - 2 ^ (-20t + 10)) / 2` at or above `0.5`;
the endpoint special cases are equality checks present in the scalar and (as masks)
in the SIMD representation, whose lanes agree with the scalar values. -/
theorem C5_expo_forms :
    ∀ (t : ℝ) (N : ℕ) (i : Fin N),
      ease_in_expo 0 = 0 ∧
      (t ≠ 0 → ease_in_expo t = (2:ℝ) ^ (10 * t - 10)) ∧
      ease_out_expo 1 = 1 ∧
      (t ≠ 1 → ease_out_expo t = 1 - (2:ℝ) ^ (-10 * t)) ∧
      ease_in_out_expo 0 = 0 ∧
      ease_in_out_expo 1 = 1 ∧
      (t ≠ 0 → t < 1/2 → ease_in_out_expo t = (2:ℝ) ^ (20 * t - 10) / 2) ∧
      (t ≠ 1 → 1/2 ≤ t → ease_in_out_expo t = (2 - (2:ℝ) ^ (-20 * t + 10)) / 2) ∧
      Simd.ease_in_expo (Simd.splat t) i = ease_in_expo t ∧
      Simd.ease_out_expo (Simd.splat t) i = ease_out_expo t ∧
      Simd.ease_in_out_expo (Simd.splat t) i = ease_in_out_expo t :=
  fun t _N i =>
    ⟨ends_ease_in_expo.1, in_expo_formula t, ends_ease_out_expo.2, out_expo_formula t,
      ends_ease_in_out_expo.1, ends_ease_in_out_expo.2,
      in_out_expo_lower_formula t, in_out_expo_upper_formula t,
      lane_ease_in_expo t i, lane_ease_out_expo t i, lane_ease_in_out_expo t i⟩

/-- C5 witness: the non-endpoint formulas evaluated at `t = 1/4` and `t = 3/4`. -/
theorem C5_expo_witness :
    ease_in_expo (1/4) = (2:ℝ) ^ (10 * (1/4 : ℝ) - 10) ∧
    ease_out_expo (1/4) = 1 - (2:ℝ) ^ (-10 * (1/4 : ℝ)) ∧
    ease_in_out_expo (1/4) = (2:ℝ) ^ (20 * (1/4 : ℝ) - 10) / 2 ∧
    ease_in_out_expo (3/4) = (2 - (2:ℝ) ^ (-20 * (3/4 : ℝ) + 10)) / 2 := by
  have h := C5_expo_forms (1/4) 1 ⟨0, by norm_num⟩
  have h' := C5_expo_forms (3/4) 1 ⟨0, by norm_num⟩
  exact ⟨h.2.1 (by norm_num), h.2.2.2.1 (by norm_num),
    h.2.2.2.2.2.2.1 (by norm_num) (by norm_num),
    h'.2.2.2.2.2.2.2.1 (by norm_num) (by norm_num)⟩

/-! ## Mirror symmetry: `ease_out_X t = 1 - ease_in_X (1 - t)` -/

theorem mirror_pow (t : ℝ) (n : ℤ) : ease_out_pow t n = 1 - ease_in_pow (1 - t) n := by
  simp [ease_out_pow, ease_in_pow, lit_one]

theorem mirror_quad (t : ℝ) : ease_out_quad t = 1 - ease_in_quad (1 - t) :=
  mirror_pow t 2

theorem mirror_cubic (t : ℝ) : ease_out_cubic t = 1 - ease_in_cubic (1 - t) :=
  mirror_pow t 3

theorem mirror_quart (t : ℝ) : ease_out_quart t = 1 - ease_in_quart (1 - t) :=
  mirror_pow t 4

theorem mirror_quint (t : ℝ) : ease_out_quint t = 1 - ease_in_quint (1 - t) :=
  mirror_pow t 5

theorem mirror_sine (t : ℝ) : ease_out_sine t = 1 - ease_in_sine (1 - t) := by
  simp only [ease_out_sine, ease_in_sine, from_f32_eq]
  rw [show ((1:ℝ) - t) * (Real.pi / 2) = Real.pi / 2 - t * (Real.pi / 2) by ring,
    Real.cos_pi_div_two_sub]
  ring

theorem mirror_circ (t : ℝ) : ease_out_circ t = 1 - ease_in_circ (1 - t) := by
  simp only [ease_out_circ, ease_in_circ, from_f32_eq, lit_one, powi_two]
  rw [show (1:ℝ) - (1 - t) ^ (2:ℕ) = 1 - (t - 1) ^ (2:ℕ) by ring]
  ring

theorem mirror_back (t : ℝ) : ease_out_back t = 1 - ease_in_back (1 - t) := by
  simp only [ease_out_back, ease_in_back, from_f32_eq, powi_two, powi_three]
  ring

theorem mirror_bounce (t : ℝ) : ease_out_bounce t = 1 - ease_in_bounce (1 - t) := by
  simp only [ease_in_bounce, from_f32_eq, lit_one]
  rw [show (1:ℝ) - (1 - t) = t by ring]
  ring

theorem mirror_expo (t : ℝ) : ease_out_expo t = 1 - ease_in_expo (1 - t) := by
  by_cases ht : t = 1
  · subst ht
    rw [ends_ease_out_expo.2, show (1:ℝ) - 1 = 0 by ring, ends_ease_in_expo.1]
    norm_num
  · have h1t : (1:ℝ) - t ≠ 0 := sub_ne_zero.mpr (Ne.symm ht)
    rw [out_expo_formula t ht, in_expo_formula (1 - t) h1t,
      Real.rpow_def_of_pos (by norm_num : (0:ℝ) < 2),
      Real.rpow_def_of_pos (by norm_num : (0:ℝ) < 2)]
    ring_nf

theorem mirror_curve (t c : ℝ) : ease_out_curve t c = 1 - ease_in_curve (1 - t) c := rfl

/-- For the elastic pair the mirror identity is only approximate, because the source
constant `2.0943952` is not exactly `2π/3`; the defect is bounded through
`cos (1.5707964) = sin (π/2 - 1.5707964)` and `|sin x| ≤ |x|`. -/
theorem mirror_elastic_bound (t : ℝ) (ht1 : 0.1 ≤ t) (ht9 : t ≤ 0.9) :
    |ease_out_elastic t - (1 - ease_in_elastic (1 - t))| ≤ 1e-6 := by
  have ht0 : t ≠ 0 := by intro h; rw [h] at ht1; norm_num at ht1
  have htone : t ≠ 1 := by intro h; rw [h] at ht9; norm_num at ht9
  have h1t0 : (1:ℝ) - t ≠ 0 := sub_ne_zero.mpr (Ne.symm htone)
  have h1t1 : (1:ℝ) - t ≠ 1 := by
    intro h
    exact ht0 (by linarith)
  have key : ease_out_elastic t - (1 - ease_in_elastic (1 - t)) =
      Real.exp (-(10 * t) * Real.log 2) *
        (Real.sin ((10 * t - 0.75) * 2.0943952) -
          Real.sin ((-(10 * t) - 0.75) * 2.0943952)) := by
    rw [ease_out_elastic, if_neg ht0, if_neg htone,
      ease_in_elastic, if_neg h1t0, if_neg h1t1]
    simp only [powf, mul_add, from_f32_eq]
    ring_nf
  have hsum : Real.sin ((10 * t - 0.75) * 2.0943952) -
      Real.sin ((-(10 * t) - 0.75) * 2.0943952) =
      2 * Real.sin (10 * t * 2.0943952) * Real.cos (0.75 * 2.0943952) := by
    rw [show ((10:ℝ) * t - 0.75) * 2.0943952 =
        10 * t * 2.0943952 - 0.75 * 2.0943952 by ring,
      show (-((10:ℝ) * t) - 0.75) * 2.0943952 =
        -(10 * t * 2.0943952 + 0.75 * 2.0943952) by ring,
      Real.sin_neg, Real.sin_sub, Real.sin_add]
    ring
  rw [key, hsum]
  have hE : Real.exp (-(10 * t) * Real.log 2) ≤ 1 / 2 := by
    have hl : (0:ℝ) < Real.log 2 := Real.log_pos (by norm_num)
    have hm : -(10 * t) * Real.log 2 ≤ (-1) * Real.log 2 := by
      have h10 : -(10 * t) ≤ -1 := by linarith
      exact mul_le_mul_of_nonneg_right h10 (le_of_lt hl)
    calc Real.exp (-(10 * t) * Real.log 2) ≤ Real.exp ((-1) * Real.log 2) :=
          Real.exp_le_exp.mpr hm
      _ = 1 / 2 := by
          rw [neg_one_mul, Real.exp_neg, Real.exp_log (by norm_num : (0:ℝ) < 2)]
          norm_num
  have hsin : |Real.sin (10 * t * 2.0943952)| ≤ 1 :=
    abs_le.mpr ⟨Real.neg_one_le_sin _, Real.sin_le_one _⟩
  have hcos : |Real.cos ((0.75:ℝ) * 2.0943952)| ≤ 4.1e-7 := by
    rw [show (0.75:ℝ) * 2.0943952 = 1.5707964 by norm_num,
      show Real.cos (1.5707964:ℝ) = Real.sin (Real.pi / 2 - 1.5707964) from
        (Real.sin_pi_div_two_sub _).symm]
    refine le_trans Real.abs_sin_le_abs ?_
    have hp1 := Real.pi_gt_d6
    have hp2 := Real.pi_lt_d6
    rw [abs_le]
    constructor <;> linarith
  calc |Real.exp (-(10 * t) * Real.log 2) *
      (2 * Real.sin (10 * t * 2.0943952) * Real.cos (0.75 * 2.0943952))|
      = Real.exp (-(10 * t) * Real.log 2) *
        (2 * |Real.sin (10 * t * 2.0943952)| * |Real.cos ((0.75:ℝ) * 2.0943952)|) := by
        rw [abs_mul, abs_mul, abs_mul, abs_of_pos (Real.exp_pos _), abs_two]
    _ ≤ (1 / 2) * (2 * 1 * 4.1e-7) := by gcongr
    _ ≤ 1e-6 := by norm_num

/-- C6: for every in/out pair of the quad, cubic, quart, quint, sine, circ, back,
bounce, expo, elastic and curve families and every `t` in `[0.1, 0.9]` (in
particular the nine test points), `ease_out_X t = 1 - ease_in_X (1 - t)` within
`1e-6`; all pairs except elastic satisfy it exactly, the curve pair with the same
curve parameter on both sides. -/
theorem C6_mirror_symmetry :
    ∀ t c : ℝ, 0.1 ≤ t → t ≤ 0.9 →
      |ease_out_quad t - (1 - ease_in_quad (1 - t))| ≤ 1e-6 ∧
      |ease_out_cubic t - (1 - ease_in_cubic (1 - t))| ≤ 1e-6 ∧
      |ease_out_quart t - (1 - ease_in_quart (1 - t))| ≤ 1e-6 ∧
      |ease_out_quint t - (1 - ease_in_quint (1 - t))| ≤ 1e-6 ∧
      |ease_out_sine t - (1 - ease_in_sine (1 - t))| ≤ 1e-6 ∧
      |ease_out_circ t - (1 - ease_in_circ (1 - t))| ≤ 1e-6 ∧
      |ease_out_back t - (1 - ease_in_back (1 - t))| ≤ 1e-6 ∧
      |ease_out_bounce t - (1 - ease_in_bounce (1 - t))| ≤ 1e-6 ∧
      |ease_out_expo t - (1 - ease_in_expo (1 - t))| ≤ 1e-6 ∧
      |ease_out_elastic t - (1 - ease_in_elastic (1 - t))| ≤ 1e-6 ∧
      |ease_out_curve t c - (1 - ease_in_curve (1 - t) c)| ≤ 1e-6 := by
  intro t c h1 h9
  refine ⟨?_, ?_, ?_, ?_, ?_, ?_, ?_, ?_, ?_, mirror_elastic_bound t h1 h9, ?_⟩
  · rw [mirror_quad t, sub_self, abs_zero]; norm_num
  · rw [mirror_cubic t, sub_self, abs_zero]; norm_num
  · rw [mirror_quart t, sub_self, abs_zero]; norm_num
  · rw [mirror_quint t, sub_self, abs_zero]; norm_num
  · rw [mirror_sine t, sub_self, abs_zero]; norm_num
  · rw [mirror_circ t, sub_self, abs_zero]; norm_num
  · rw [mirror_back t, sub_self, abs_zero]; norm_num
  · rw [mirror_bounce t, sub_self, abs_zero]; norm_num
  · rw [mirror_expo t, sub_self, abs_zero]; norm_num
  · rw [mirror_curve t c, sub_self, abs_zero]; norm_num

/-- C6 witness: the symmetry at the test point `t = 0.5` for the quad pair. -/
theorem C6_mirror_witness :
    |ease_out_quad 0.5 - (1 - ease_in_quad (1 - (0.5:ℝ)))| ≤ 1e-6 :=
  (C6_mirror_symmetry 0.5 1 (by norm_num) (by norm_num)).1

/-! ## Monotonicity on `[0, 1]` of the non-bounce, non-back, non-elastic families -/

theorem mono_in_quad {t1 t2 : ℝ} (h0 : 0 ≤ t1) (h12 : t1 ≤ t2) :
    ease_in_quad t1 ≤ ease_in_quad t2 := by
  simp only [ease_in_quad, ease_in_pow, powi_two]
  exact pow_le_pow_left h0 h12 2

theorem mono_in_cubic {t1 t2 : ℝ} (h0 : 0 ≤ t1) (h12 : t1 ≤ t2) :
    ease_in_cubic t1 ≤ ease_in_cubic t2 := by
  simp only [ease_in_cubic, ease_in_pow, powi_three]
  exact pow_le_pow_left h0 h12 3

theorem mono_in_quart {t1 t2 : ℝ} (h0 : 0 ≤ t1) (h12 : t1 ≤ t2) :
    ease_in_quart t1 ≤ ease_in_quart t2 := by
  simp only [ease_in_quart, ease_in_pow, powi_four]
  exact pow_le_pow_left h0 h12 4

theorem mono_in_quint {t1 t2 : ℝ} (h0 : 0 ≤ t1) (h12 : t1 ≤ t2) :
    ease_in_quint t1 ≤ ease_in_quint t2 := by
  simp only [ease_in_quint, ease_in_pow, powi_five]
  exact pow_le_pow_left h0 h12 5

theorem mono_out_quad {t1 t2 : ℝ} (h12 : t1 ≤ t2) (h1 : t2 ≤ 1) :
    ease_out_quad t1 ≤ ease_out_quad t2 := by
  simp only [ease_out_quad, ease_out_pow, powi_two, from_f32_eq, lit_one]
  have h := pow_le_pow_left (show (0:ℝ) ≤ 1 - t2 by linarith)
    (show (1:ℝ) - t2 ≤ 1 - t1 by linarith) 2
  linarith

theorem mono_out_cubic {t1 t2 : ℝ} (h12 : t1 ≤ t2) (h1 : t2 ≤ 1) :
    ease_out_cubic t1 ≤ ease_out_cubic t2 := by
  simp only [ease_out_cubic, ease_out_pow, powi_three, from_f32_eq, lit_one]
  have h := pow_le_pow_left (show (0:ℝ) ≤ 1 - t2 by linarith)
    (show (1:ℝ) - t2 ≤ 1 - t1 by linarith) 3
  linarith

theorem mono_out_quart {t1 t2 : ℝ} (h12 : t1 ≤ t2) (h1 : t2 ≤ 1) :
    ease_out_quart t1 ≤ ease_out_quart t2 := by
  simp only [ease_out_quart, ease_out_pow, powi_four, from_f32_eq, lit_one]
  have h := pow_le_pow_left (show (0:ℝ) ≤ 1 - t2 by linarith)
    (show (1:ℝ) - t2 ≤ 1 - t1 by linarith) 4
  linarith

theorem mono_out_quint {t1 t2 : ℝ} (h12 : t1 ≤ t2) (h1 : t2 ≤ 1) :
    ease_out_quint t1 ≤ ease_out_quint t2 := by
  simp only [ease_out_quint, ease_out_pow, powi_five, from_f32_eq, lit_one]
  have h := pow_le_pow_left (show (0:ℝ) ≤ 1 - t2 by linarith)
    (show (1:ℝ) - t2 ≤ 1 - t1 by linarith) 5
  linarith

theorem mono_in_out_quad {t1 t2 : ℝ} (h0 : 0 ≤ t1) (h12 : t1 ≤ t2) (h1 : t2 ≤ 1) :
    ease_in_out_quad t1 ≤ ease_in_out_quad t2 := by
  simp only [ease_in_out_quad, powi_two, from_f32_eq, lit_two]
  rcases lt_or_le t1 (0.5:ℝ) with ha | ha <;> rcases lt_or_le t2 (0.5:ℝ) with hb | hb
  · rw [if_pos ha, if_pos hb]
    have h := pow_le_pow_left h0 h12 2
    linarith
  · rw [if_pos ha, if_neg (not_lt.mpr hb)]
    have e1 : t1 ^ (2:ℕ) ≤ (0.5:ℝ) ^ (2:ℕ) := pow_le_pow_left h0 ha.le 2
    have e2 : ((2:ℝ) * t2 - 2) ^ (2:ℕ) ≤ 1 := by
      nlinarith [mul_nonneg (show (0:ℝ) ≤ 2 * t2 - 1 by linarith)
        (show (0:ℝ) ≤ 3 - 2 * t2 by linarith)]
    norm_num at e1
    linarith
  · exact absurd (lt_of_le_of_lt (le_trans ha h12) hb) (lt_irrefl _)
  · rw [if_neg (not_lt.mpr ha), if_neg (not_lt.mpr hb)]
    have e : ((2:ℝ) * t2 - 2) ^ (2:ℕ) ≤ (2 * t1 - 2) ^ (2:ℕ) := by
      nlinarith [mul_nonneg (show (0:ℝ) ≤ 2 - t1 - t2 by linarith)
        (show (0:ℝ) ≤ t2 - t1 by linarith)]
    linarith

theorem mono_in_out_cubic {t1 t2 : ℝ} (h0 : 0 ≤ t1) (h12 : t1 ≤ t2) (h1 : t2 ≤ 1) :
    ease_in_out_cubic t1 ≤ ease_in_out_cubic t2 := by
  simp only [ease_in_out_cubic, powi_three, from_f32_eq, lit_two, double]
  rcases lt_or_le t1 (0.5:ℝ) with ha | ha <;> rcases lt_or_le t2 (0.5:ℝ) with hb | hb
  · rw [if_pos ha, if_pos hb]
    have h := pow_le_pow_left h0 h12 3
    linarith
  · rw [if_pos ha, if_neg (not_lt.mpr hb)]
    have e1 : t1 ^ (3:ℕ) ≤ (0.5:ℝ) ^ (3:ℕ) := pow_le_pow_left h0 ha.le 3
    have e2 : ((2:ℝ) - (t2 + t2)) ^ (3:ℕ) ≤ 1 :=
      pow_le_one₀ (by linarith) (by linarith)
    norm_num at e1
    linarith
  · exact absurd (lt_of_le_of_lt (le_trans ha h12) hb) (lt_irrefl _)
  · rw [if_neg (not_lt.mpr ha), if_neg (not_lt.mpr hb)]
    have e : ((2:ℝ) - (t2 + t2)) ^ (3:ℕ) ≤ (2 - (t1 + t1)) ^ (3:ℕ) :=
      pow_le_pow_left (by linarith) (by linarith) 3
    linarith

theorem mono_in_out_quart {t1 t2 : ℝ} (h0 : 0 ≤ t1) (h12 : t1 ≤ t2) (h1 : t2 ≤ 1) :
    ease_in_out_quart t1 ≤ ease_in_out_quart t2 := by
  simp only [ease_in_out_quart, powi_four, from_f32_eq, lit_two, lit_eight, double]
  rcases lt_or_le t1 (0.5:ℝ) with ha | ha <;> rcases lt_or_le t2 (0.5:ℝ) with hb | hb
  · rw [if_pos ha, if_pos hb]
    have h := pow_le_pow_left h0 h12 4
    linarith
  · rw [if_pos ha, if_neg (not_lt.mpr hb)]
    have e1 : t1 ^ (4:ℕ) ≤ (0.5:ℝ) ^ (4:ℕ) := pow_le_pow_left h0 ha.le 4
    have e2 : ((2:ℝ) - (t2 + t2)) ^ (4:ℕ) ≤ 1 :=
      pow_le_one₀ (by linarith) (by linarith)
    norm_num at e1
    linarith
  · exact absurd (lt_of_le_of_lt (le_trans ha h12) hb) (lt_irrefl _)
  · rw [if_neg (not_lt.mpr ha), if_neg (not_lt.mpr hb)]
    have e : ((2:ℝ) - (t2 + t2)) ^ (4:ℕ) ≤ (2 - (t1 + t1)) ^ (4:ℕ) :=
      pow_le_pow_left (by linarith) (by linarith) 4
    linarith

theorem mono_in_out_quint {t1 t2 : ℝ} (h0 : 0 ≤ t1) (h12 : t1 ≤ t2) (h1 : t2 ≤ 1) :
    ease_in_out_quint t1 ≤ ease_in_out_quint t2 := by
  simp only [ease_in_out_quint, powi_five, from_f32_eq, lit_two, lit_sixteen, double]
  rcases lt_or_le t1 (0.5:ℝ) with ha | ha <;> rcases lt_or_le t2 (0.5:ℝ) with hb | hb
  · rw [if_pos ha, if_pos hb]
    have h := pow_le_pow_left h0 h12 5
    linarith
  · rw [if_pos ha, if_neg (not_lt.mpr hb)]
    have e1 : t1 ^ (5:ℕ) ≤ (0.5:ℝ) ^ (5:ℕ) := pow_le_pow_left h0 ha.le 5
    have e2 : ((2:ℝ) - (t2 + t2)) ^ (5:ℕ) ≤ 1 :=
      pow_le_one₀ (by linarith) (by linarith)
    norm_num at e1
    linarith
  · exact absurd (lt_of_le_of_lt (le_trans ha h12) hb) (lt_irrefl _)
  · rw [if_neg (not_lt.mpr ha), if_neg (not_lt.mpr hb)]
    have e : ((2:ℝ) - (t2 + t2)) ^ (5:ℕ) ≤ (2 - (t1 + t1)) ^ (5:ℕ) :=
      pow_le_pow_left (by linarith) (by linarith) 5
    linarith

theorem mono_in_sine {t1 t2 : ℝ} (h0 : 0 ≤ t1) (h12 : t1 ≤ t2) (h1 : t2 ≤ 1) :
    ease_in_sine t1 ≤ ease_in_sine t2 := by
  simp only [ease_in_sine, from_f32_eq, lit_one]
  have hc := Real.cos_le_cos_of_nonneg_of_le_pi
    (mul_nonneg h0 (by positivity : (0:ℝ) ≤ Real.pi / 2))
    (show t2 * (Real.pi / 2) ≤ Real.pi by nlinarith [Real.pi_pos])
    (mul_le_mul_of_nonneg_right h12 (by positivity : (0:ℝ) ≤ Real.pi / 2))
  linarith

theorem mono_out_sine {t1 t2 : ℝ} (h0 : 0 ≤ t1) (h12 : t1 ≤ t2) (h1 : t2 ≤ 1) :
    ease_out_sine t1 ≤ ease_out_sine t2 := by
  simp only [ease_out_sine, from_f32_eq]
  refine Real.strictMonoOn_sin.monotoneOn ⟨?_, ?_⟩ ⟨?_, ?_⟩
    (mul_le_mul_of_nonneg_right h12 (by positivity : (0:ℝ) ≤ Real.pi / 2))
  · nlinarith [Real.pi_pos]
  · nlinarith [Real.pi_pos]
  · nlinarith [Real.pi_pos]
  · nlinarith [Real.pi_pos]

theorem mono_in_out_sine {t1 t2 : ℝ} (h0 : 0 ≤ t1) (h12 : t1 ≤ t2) (h1 : t2 ≤ 1) :
    ease_in_out_sine t1 ≤ ease_in_out_sine t2 := by
  simp only [ease_in_out_sine, from_f32_eq, mul_add]
  have hc := Real.cos_le_cos_of_nonneg_of_le_pi
    (mul_nonneg h0 Real.pi_pos.le)
    (show t2 * Real.pi ≤ Real.pi by nlinarith [Real.pi_pos])
    (mul_le_mul_of_nonneg_right h12 Real.pi_pos.le)
  nlinarith [hc]

theorem mono_in_circ {t1 t2 : ℝ} (h0 : 0 ≤ t1) (h12 : t1 ≤ t2) :
    ease_in_circ t1 ≤ ease_in_circ t2 := by
  simp only [ease_in_circ, from_f32_eq, lit_one, powi_two]
  have hp := pow_le_pow_left h0 h12 2
  have h := Real.sqrt_le_sqrt (show (1:ℝ) - t2 ^ (2:ℕ) ≤ 1 - t1 ^ (2:ℕ) by linarith)
  linarith

theorem mono_out_circ {t1 t2 : ℝ} (h12 : t1 ≤ t2) (h1 : t2 ≤ 1) :
    ease_out_circ t1 ≤ ease_out_circ t2 := by
  simp only [ease_out_circ, from_f32_eq, lit_one, powi_two]
  refine Real.sqrt_le_sqrt ?_
  nlinarith [mul_nonneg (show (0:ℝ) ≤ t2 - t1 by linarith)
    (show (0:ℝ) ≤ 2 - t1 - t2 by linarith)]

theorem mono_in_out_circ {t1 t2 : ℝ} (h0 : 0 ≤ t1) (h12 : t1 ≤ t2) (h1 : t2 ≤ 1) :
    ease_in_out_circ t1 ≤ ease_in_out_circ t2 := by
  simp only [ease_in_out_circ, from_f32_eq, lit_one, lit_two, powi_two, double]
  rcases lt_or_le t1 (0.5:ℝ) with ha | ha <;> rcases lt_or_le t2 (0.5:ℝ) with hb | hb
  · rw [if_pos ha, if_pos hb]
    have hp : (t1 + t1) ^ (2:ℕ) ≤ (t2 + t2) ^ (2:ℕ) :=
      pow_le_pow_left (by linarith) (by linarith) 2
    have h := Real.sqrt_le_sqrt
      (show (1:ℝ) - (t2 + t2) ^ (2:ℕ) ≤ 1 - (t1 + t1) ^ (2:ℕ) by linarith)
    linarith
  · rw [if_pos ha, if_neg (not_lt.mpr hb)]
    have s1 := Real.sqrt_nonneg ((1:ℝ) - (t1 + t1) ^ (2:ℕ))
    have s2 := Real.sqrt_nonneg ((1:ℝ) - (2 - (t2 + t2)) ^ (2:ℕ))
    linarith
  · exact absurd (lt_of_le_of_lt (le_trans ha h12) hb) (lt_irrefl _)
  · rw [if_neg (not_lt.mpr ha), if_neg (not_lt.mpr hb)]
    have hp : ((2:ℝ) - (t2 + t2)) ^ (2:ℕ) ≤ (2 - (t1 + t1)) ^ (2:ℕ) :=
      pow_le_pow_left (by linarith) (by linarith) 2
    have h := Real.sqrt_le_sqrt
      (show (1:ℝ) - (2 - (t1 + t1)) ^ (2:ℕ) ≤ 1 - (2 - (t2 + t2)) ^ (2:ℕ) by linarith)
    linarith

theorem mono_in_expo {t1 t2 : ℝ} (h0 : 0 ≤ t1) (h12 : t1 ≤ t2) :
    ease_in_expo t1 ≤ ease_in_expo t2 := by
  simp only [ease_in_expo, powf, mul_add, from_f32_eq, lit_ten, lit_two]
  by_cases ha : t1 = 0
  · rw [if_pos ha]
    split_ifs with hb
    · exact le_refl 0
    · exact (Real.exp_pos _).le
  · have hb : t2 ≠ 0 := by
      intro h
      exact ha (le_antisymm (h ▸ h12) h0)
    rw [if_neg ha, if_neg hb]
    have hl : (0:ℝ) ≤ Real.log 2 := (Real.log_pos (by norm_num)).le
    exact Real.exp_le_exp.mpr
      (mul_le_mul_of_nonneg_right (by linarith : 10 * t1 + -10 ≤ 10 * t2 + -10) hl)

theorem mono_out_expo {t1 t2 : ℝ} (h12 : t1 ≤ t2) (h1 : t2 ≤ 1) :
    ease_out_expo t1 ≤ ease_out_expo t2 := by
  simp only [ease_out_expo, powf, mul_add, from_f32_eq, lit_ten, lit_two]
  by_cases hb : t2 = 1
  · rw [if_pos hb]
    split_ifs with ha
    · exact le_refl 1
    · have h := Real.exp_pos (-10 * t1 * Real.log 2)
      linarith
  · have ha : t1 ≠ 1 := by
      intro h
      exact hb (le_antisymm h1 (h ▸ h12))
    rw [if_neg ha, if_neg hb]
    have hl : (0:ℝ) ≤ Real.log 2 := (Real.log_pos (by norm_num)).le
    have he : Real.exp (-10 * t2 * Real.log 2) ≤ Real.exp (-10 * t1 * Real.log 2) :=
      Real.exp_le_exp.mpr
        (mul_le_mul_of_nonneg_right (by linarith : -10 * t2 ≤ -10 * t1) hl)
    linarith

theorem in_out_expo_nonneg (t : ℝ) : 0 ≤ ease_in_out_expo t := by
  simp only [ease_in_out_expo, powf, mul_add, from_f32_eq, lit_ten, lit_twenty]
  have hL : (0:ℝ) < Real.log 2 := Real.log_pos (by norm_num)
  split_ifs with h0 h1 hh
  · exact le_refl 0
  · norm_num
  · positivity
  · have ht : (0.5:ℝ) ≤ t := not_lt.mp hh
    have hexp : Real.exp ((-20 * t + 10) * Real.log 2) ≤ 1 := by
      rw [← Real.exp_zero]
      exact Real.exp_le_exp.mpr (by nlinarith)
    linarith

theorem in_out_expo_le_one (t : ℝ) : ease_in_out_expo t ≤ 1 := by
  simp only [ease_in_out_expo, powf, mul_add, from_f32_eq, lit_ten, lit_twenty]
  have hL : (0:ℝ) < Real.log 2 := Real.log_pos (by norm_num)
  split_ifs with h0 h1 hh
  · norm_num
  · exact le_refl 1
  · have hexp : Real.exp ((20 * t + -10) * Real.log 2) ≤ 1 := by
      rw [← Real.exp_zero]
      exact Real.exp_le_exp.mpr (by nlinarith)
    linarith
  · have h := Real.exp_pos ((-20 * t + 10) * Real.log 2)
    linarith

theorem mono_in_out_expo {t1 t2 : ℝ} (h0 : 0 ≤ t1) (h12 : t1 ≤ t2) (h1 : t2 ≤ 1) :
    ease_in_out_expo t1 ≤ ease_in_out_expo t2 := by
  by_cases ha0 : t1 = 0
  · rw [ha0, ends_ease_in_out_expo.1]
    exact in_out_expo_nonneg t2
  · by_cases hb1 : t2 = 1
    · rw [hb1, ends_ease_in_out_expo.2]
      exact in_out_expo_le_one t1
    · have ht1pos : 0 < t1 := lt_of_le_of_ne h0 (Ne.symm ha0)
      have ht2lt : t2 < 1 := lt_of_le_of_ne h1 hb1
      have ha1 : t1 ≠ 1 := ne_of_lt (lt_of_le_of_lt h12 ht2lt)
      have hb0 : t2 ≠ 0 := ne_of_gt (lt_of_lt_of_le ht1pos h12)
      simp only [ease_in_out_expo, powf, mul_add, from_f32_eq, lit_ten, lit_twenty]
      rw [if_neg ha0, if_neg ha1, if_neg hb0, if_neg hb1]
      have hL : (0:ℝ) < Real.log 2 := Real.log_pos (by norm_num)
      rcases lt_or_le t1 (0.5:ℝ) with hA | hA <;> rcases lt_or_le t2 (0.5:ℝ) with hB | hB
      · rw [if_pos hA, if_pos hB]
        have he : Real.exp ((20 * t1 + -10) * Real.log 2) ≤
            Real.exp ((20 * t2 + -10) * Real.log 2) :=
          Real.exp_le_exp.mpr (mul_le_mul_of_nonneg_right (by linarith) hL.le)
        linarith
      · rw [if_pos hA, if_neg (not_lt.mpr hB)]
        have e1 : Real.exp ((20 * t1 + -10) * Real.log 2) ≤ 1 := by
          rw [← Real.exp_zero]
          exact Real.exp_le_exp.mpr (by nlinarith)
        have e2 : Real.exp ((-20 * t2 + 10) * Real.log 2) ≤ 1 := by
          rw [← Real.exp_zero]
          exact Real.exp_le_exp.mpr (by nlinarith)
        linarith
      · exact absurd (lt_of_le_of_lt (le_trans hA h12) hB) (lt_irrefl _)
      · rw [if_neg (not_lt.mpr hA), if_neg (not_lt.mpr hB)]
        have he : Real.exp ((-20 * t2 + 10) * Real.log 2) ≤
            Real.exp ((-20 * t1 + 10) * Real.log 2) :=
          Real.exp_le_exp.mpr (mul_le_mul_of_nonneg_right (by linarith) hL.le)
        linarith

theorem mono_in_curve (c : ℝ) {t1 t2 : ℝ} (h12 : t1 ≤ t2) :
    ease_in_curve t1 c ≤ ease_in_curve t2 c := by
  simp only [ease_in_curve, from_f32_eq]
  by_cases h : |c| < 0.001
  · rw [if_pos h, if_pos h]
    exact h12
  · rw [if_neg h, if_neg h]
    simp only [powf, Real.log_exp]
    rcases lt_trichotomy c 0 with hneg | hzero | hpos
    · have hg : Real.exp c < 1 := by
        rw [← Real.exp_zero]
        exact Real.exp_lt_exp.mpr hneg
      have ha : 0 < 1 / (1 - Real.exp c) := by
        apply one_div_pos.mpr
        linarith
      have hexp : Real.exp (t2 * c) ≤ Real.exp (t1 * c) :=
        Real.exp_le_exp.mpr (mul_le_mul_of_nonpos_right h12 hneg.le)
      have := mul_le_mul_of_nonneg_left hexp ha.le
      linarith
    · rw [hzero] at h
      norm_num at h
    · have hg : 1 < Real.exp c := by
        rw [← Real.exp_zero]
        exact Real.exp_lt_exp.mpr hpos
      have ha : 1 / (1 - Real.exp c) < 0 := by
        apply one_div_neg.mpr
        linarith
      have hexp : Real.exp (t1 * c) ≤ Real.exp (t2 * c) :=
        Real.exp_le_exp.mpr (mul_le_mul_of_nonneg_right h12 hpos.le)
      have := mul_le_mul_of_nonpos_left hexp ha.le
      linarith

theorem mono_out_curve (c : ℝ) {t1 t2 : ℝ} (h12 : t1 ≤ t2) :
    ease_out_curve t1 c ≤ ease_out_curve t2 c := by
  rw [ease_out_curve, ease_out_curve]
  have := mono_in_curve c (show (1:ℝ) - t2 ≤ 1 - t1 by linarith)
  linarith

theorem in_curve_le_one (c : ℝ) {s : ℝ} (hs : s ≤ 1) : ease_in_curve s c ≤ 1 :=
  le_trans (mono_in_curve c hs) (le_of_eq (ease_in_curve_one c))

theorem out_curve_nonneg (c : ℝ) {u : ℝ} (hu : 0 ≤ u) : 0 ≤ ease_out_curve u c := by
  rw [ease_out_curve]
  have := in_curve_le_one c (show (1:ℝ) - u ≤ 1 by linarith)
  linarith

theorem mono_in_out_curve (c : ℝ) {t1 t2 : ℝ} (h0 : 0 ≤ t1) (h12 : t1 ≤ t2)
    (h1 : t2 ≤ 1) : ease_in_out_curve t1 c ≤ ease_in_out_curve t2 c := by
  simp only [ease_in_out_curve, from_f32_eq, double]
  rcases lt_or_le t1 (0.5:ℝ) with ha | ha <;> rcases lt_or_le t2 (0.5:ℝ) with hb | hb
  · rw [if_pos ha, if_pos hb]
    have := mono_in_curve c (show t1 + t1 ≤ t2 + t2 by linarith)
    linarith
  · rw [if_pos ha, if_neg (not_lt.mpr hb)]
    have hle := in_curve_le_one c (show t1 + t1 ≤ 1 by linarith)
    have hnn := out_curve_nonneg c
      (show (0:ℝ) ≤ (t2 - 0.5) + (t2 - 0.5) by linarith)
    linarith
  · exact absurd (lt_of_le_of_lt (le_trans ha h12) hb) (lt_irrefl _)
  · rw [if_neg (not_lt.mpr ha), if_neg (not_lt.mpr hb)]
    have := mono_out_curve c
      (show (t1 - 0.5) + (t1 - 0.5) ≤ (t2 - 0.5) + (t2 - 0.5) by linarith)
    linarith

/-- C7: every easing function outside the bounce, back and elastic families —
the power family (in, out and in-out forms for quad/cubic/quart/quint), the sine,
circ and expo families, and the three curve functions for every curve parameter —
is monotone non-decreasing on `[0, 1]`. -/
theorem C7_monotonicity :
    ∀ t1 t2 : ℝ, 0 ≤ t1 → t1 ≤ t2 → t2 ≤ 1 →
      (ease_in_quad t1 ≤ ease_in_quad t2) ∧
      (ease_out_quad t1 ≤ ease_out_quad t2) ∧
      (ease_in_out_quad t1 ≤ ease_in_out_quad t2) ∧
      (ease_in_cubic t1 ≤ ease_in_cubic t2) ∧
      (ease_out_cubic t1 ≤ ease_out_cubic t2) ∧
      (ease_in_out_cubic t1 ≤ ease_in_out_cubic t2) ∧
      (ease_in_quart t1 ≤ ease_in_quart t2) ∧
      (ease_out_quart t1 ≤ ease_out_quart t2) ∧
      (ease_in_out_quart t1 ≤ ease_in_out_quart t2) ∧
      (ease_in_quint t1 ≤ ease_in_quint t2) ∧
      (ease_out_quint t1 ≤ ease_out_quint t2) ∧
      (ease_in_out_quint t1 ≤ ease_in_out_quint t2) ∧
      (ease_in_sine t1 ≤ ease_in_sine t2) ∧
      (ease_out_sine t1 ≤ ease_out_sine t2) ∧
      (ease_in_out_sine t1 ≤ ease_in_out_sine t2) ∧
      (ease_in_circ t1 ≤ ease_in_circ t2) ∧
      (ease_out_circ t1 ≤ ease_out_circ t2) ∧
      (ease_in_out_circ t1 ≤ ease_in_out_circ t2) ∧
      (ease_in_expo t1 ≤ ease_in_expo t2) ∧
      (ease_out_expo t1 ≤ ease_out_expo t2) ∧
      (ease_in_out_expo t1 ≤ ease_in_out_expo t2) ∧
      (∀ c : ℝ, ease_in_curve t1 c ≤ ease_in_curve t2 c) ∧
      (∀ c : ℝ, ease_out_curve t1 c ≤ ease_out_curve t2 c) ∧
      (∀ c : ℝ, ease_in_out_curve t1 c ≤ ease_in_out_curve t2 c) :=
  fun _t1 _t2 h0 h12 h1 =>
    ⟨mono_in_quad h0 h12, mono_out_quad h12 h1, mono_in_out_quad h0 h12 h1,
      mono_in_cubic h0 h12, mono_out_cubic h12 h1, mono_in_out_cubic h0 h12 h1,
      mono_in_quart h0 h12, mono_out_quart h12 h1, mono_in_out_quart h0 h12 h1,
      mono_in_quint h0 h12, mono_out_quint h12 h1, mono_in_out_quint h0 h12 h1,
      mono_in_sine h0 h12 h1, mono_out_sine h0 h12 h1, mono_in_out_sine h0 h12 h1,
      mono_in_circ h0 h12, mono_out_circ h12 h1, mono_in_out_circ h0 h12 h1,
      mono_in_expo h0 h12, mono_out_expo h12 h1, mono_in_out_expo h0 h12 h1,
      fun c => mono_in_curve c h12, fun c => mono_out_curve c h12,
      fun c => mono_in_out_curve c h0 h12 h1⟩

/-- C7 witness: monotonicity instantiated at the endpoints `t1 = 0`, `t2 = 1`. -/
theorem C7_monotonicity_witness : ease_in_quad 0 ≤ ease_in_quad 1 :=
  (C7_monotonicity 0 1 le_rfl zero_le_one le_rfl).1

/-! ## Branch forms and continuity of the in-out power family -/

/-- A two-branch piecewise function is continuous at the split point when the two
branch functions are continuous and agree there. -/
theorem continuousAt_ite_lt {P Q : ℝ → ℝ} {a : ℝ} (hP : Continuous P)
    (hQ : Continuous Q) (hpq : P a = Q a) :
    ContinuousAt (fun t => if t < a then P t else Q t) a := by
  unfold ContinuousAt
  rw [show (fun t => if t < a then P t else Q t) a = Q a from by
    show (if a < a then P a else Q a) = Q a
    rw [if_neg (lt_irrefl a)]]
  rw [← tendsto_sub_nhds_zero_iff]
  apply squeeze_zero_norm (a := fun t => |P t - Q a| + |Q t - Q a|)
  · intro t
    show ‖(if t < a then P t else Q t) - Q a‖ ≤ |P t - Q a| + |Q t - Q a|
    by_cases h : t < a
    · rw [if_pos h, Real.norm_eq_abs]
      exact le_add_of_nonneg_right (abs_nonneg _)
    · rw [if_neg h, Real.norm_eq_abs]
      exact le_add_of_nonneg_left (abs_nonneg _)
  · have h1 : Filter.Tendsto (fun t => |P t - Q a|) (nhds a) (nhds 0) := by
      have h := (hP.tendsto a).sub (tendsto_const_nhds (x := Q a))
      rw [hpq, sub_self] at h
      simpa using h.abs
    have h2 : Filter.Tendsto (fun t => |Q t - Q a|) (nhds a) (nhds 0) := by
      have h := (hQ.tendsto a).sub (tendsto_const_nhds (x := Q a))
      rw [sub_self] at h
      simpa using h.abs
    simpa using h1.add h2

theorem in_out_quad_eq : ease_in_out_quad =
    fun t : ℝ => if t < 0.5 then 2 * t ^ (2:ℕ) else 1 - (2 - 2*t) ^ (2:ℕ) / 2 := by
  funext t
  simp only [ease_in_out_quad, powi_two, from_f32_eq, lit_two]
  split_ifs <;> ring

theorem in_out_cubic_eq : ease_in_out_cubic =
    fun t : ℝ => if t < 0.5 then 4 * t ^ (3:ℕ) else 1 - (2 - 2*t) ^ (3:ℕ) / 2 := by
  funext t
  simp only [ease_in_out_cubic, powi_three, from_f32_eq, lit_two, double]
  split_ifs <;> ring

theorem in_out_quart_eq : ease_in_out_quart =
    fun t : ℝ => if t < 0.5 then 8 * t ^ (4:ℕ) else 1 - (2 - 2*t) ^ (4:ℕ) / 2 := by
  funext t
  simp only [ease_in_out_quart, powi_four, from_f32_eq, lit_two, lit_eight, double]
  split_ifs <;> ring

theorem in_out_quint_eq : ease_in_out_quint =
    fun t : ℝ => if t < 0.5 then 16 * t ^ (5:ℕ) else 1 - (2 - 2*t) ^ (5:ℕ) / 2 := by
  funext t
  simp only [ease_in_out_quint, powi_five, from_f32_eq, lit_two, lit_sixteen, double]
  split_ifs <;> ring

theorem mid_in_out_quad : ease_in_out_quad 0.5 = 0.5 := by
  norm_num [ease_in_out_quad, powi_two]

theorem mid_in_out_cubic : ease_in_out_cubic 0.5 = 0.5 := by
  norm_num [ease_in_out_cubic, powi_three, double]

theorem mid_in_out_quart : ease_in_out_quart 0.5 = 0.5 := by
  norm_num [ease_in_out_quart, powi_four, double]

theorem mid_in_out_quint : ease_in_out_quint 0.5 = 0.5 := by
  norm_num [ease_in_out_quint, powi_five, double]

theorem contAt_in_out_quad : ContinuousAt ease_in_out_quad 0.5 := by
  rw [in_out_quad_eq]
  exact continuousAt_ite_lt (by continuity) (by continuity) (by norm_num)

theorem contAt_in_out_cubic : ContinuousAt ease_in_out_cubic 0.5 := by
  rw [in_out_cubic_eq]
  exact continuousAt_ite_lt (by continuity) (by continuity) (by norm_num)

theorem contAt_in_out_quart : ContinuousAt ease_in_out_quart 0.5 := by
  rw [in_out_quart_eq]
  exact continuousAt_ite_lt (by continuity) (by continuity) (by norm_num)

theorem contAt_in_out_quint : ContinuousAt ease_in_out_quint 0.5 := by
  rw [in_out_quint_eq]
  exact continuousAt_ite_lt (by continuity) (by continuity) (by norm_num)

/-- C8: the in-out power functions have the doubled-power lower branch with
coefficients 2, 4, 8, 16 for `t < 0.5`, the matching upper closed form
`1 - (2 - 2t)^n / 2` otherwise, and each is continuous at `t = 0.5` with value
`0.5`. -/
theorem C8_in_out_pow_forms :
    ∀ t : ℝ,
      (t < 0.5 →
        ease_in_out_quad t = 2 * t ^ (2:ℕ) ∧
        ease_in_out_cubic t = 4 * t ^ (3:ℕ) ∧
        ease_in_out_quart t = 8 * t ^ (4:ℕ) ∧
        ease_in_out_quint t = 16 * t ^ (5:ℕ)) ∧
      (0.5 ≤ t →
        ease_in_out_quad t = 1 - (2 - 2*t) ^ (2:ℕ) / 2 ∧
        ease_in_out_cubic t = 1 - (2 - 2*t) ^ (3:ℕ) / 2 ∧
        ease_in_out_quart t = 1 - (2 - 2*t) ^ (4:ℕ) / 2 ∧
        ease_in_out_quint t = 1 - (2 - 2*t) ^ (5:ℕ) / 2) ∧
      (ease_in_out_quad 0.5 = 0.5 ∧ ContinuousAt ease_in_out_quad 0.5) ∧
      (ease_in_out_cubic 0.5 = 0.5 ∧ ContinuousAt ease_in_out_cubic 0.5) ∧
      (ease_in_out_quart 0.5 = 0.5 ∧ ContinuousAt ease_in_out_quart 0.5) ∧
      (ease_in_out_quint 0.5 = 0.5 ∧ ContinuousAt ease_in_out_quint 0.5) := by
  intro t
  refine ⟨fun h => ⟨?_, ?_, ?_, ?_⟩, fun h => ⟨?_, ?_, ?_, ?_⟩,
    ⟨mid_in_out_quad, contAt_in_out_quad⟩, ⟨mid_in_out_cubic, contAt_in_out_cubic⟩,
    ⟨mid_in_out_quart, contAt_in_out_quart⟩, ⟨mid_in_out_quint, contAt_in_out_quint⟩⟩
  · rw [in_out_quad_eq]
    exact if_pos h
  · rw [in_out_cubic_eq]
    exact if_pos h
  · rw [in_out_quart_eq]
    exact if_pos h
  · rw [in_out_quint_eq]
    exact if_pos h
  · rw [in_out_quad_eq]
    exact if_neg (not_lt.mpr h)
  · rw [in_out_cubic_eq]
    exact if_neg (not_lt.mpr h)
  · rw [in_out_quart_eq]
    exact if_neg (not_lt.mpr h)
  · rw [in_out_quint_eq]
    exact if_neg (not_lt.mpr h)

/-- C8 witness: the branch equations evaluated at `t = 0.25` and `t = 0.75`. -/
theorem C8_in_out_pow_witness :
    ease_in_out_quad 0.25 = 2 * (0.25:ℝ) ^ (2:ℕ) ∧
    ease_in_out_quint 0.75 = 1 - (2 - 2*(0.75:ℝ)) ^ (5:ℕ) / 2 :=
  ⟨((C8_in_out_pow_forms 0.25).1 (by norm_num)).1,
    (((C8_in_out_pow_forms 0.75).2.1 (by norm_num)).2.2.2)⟩

/-! ## Totality of the conversion layer -/

/-- C9: the modelled `from_f32` conversion returns `some` for every input (so the
`unwrap` calls of the scalar impl cannot fail), the unwrapped value is the input
itself, and the SIMD `from_f32` splats it to every lane; every easing operation of
the model is a total function. -/
theorem C9_conversions_total :
    ∀ x : ℝ, (from_prim x).isSome = true ∧ from_f32 x = x ∧
      ∀ (N : ℕ) (i : Fin N), (Simd.from_f32 x : Vec N) i = x :=
  fun _x => ⟨rfl, rfl, fun _N _i => rfl⟩

/-! ## Behaviour at the midpoint `t = 0.5` -/

theorem ease_out_curve_zero (c : ℝ) : ease_out_curve 0 c = 0 :=
  (ends_ease_out_curve c).1

theorem mid_in_out_circ : ease_in_out_circ 0.5 = 0.5 := by
  norm_num [ease_in_out_circ, powi_two, double, Real.sqrt_zero, Real.sqrt_one]

theorem mid_in_out_back : ease_in_out_back 0.5 = 0.5 := by
  norm_num [ease_in_out_back, powi_two, double, mul_add]

theorem mid_in_out_bounce : ease_in_out_bounce 0.5 = 0.5 := by
  norm_num [ease_in_out_bounce, ease_out_bounce, double, mul_add]

theorem mid_in_out_expo : ease_in_out_expo 0.5 = 0.5 := by
  norm_num [ease_in_out_expo, powf, mul_add, Real.exp_zero]

theorem mid_in_out_curve (c : ℝ) : ease_in_out_curve 0.5 c = 0.5 := by
  rw [ease_in_out_curve]
  rw [if_neg (by norm_num : ¬ (0.5:ℝ) < from_f32 0.5)]
  have h : double ((0.5:ℝ) - from_f32 0.5) = 0 := by norm_num [double]
  rw [h, ease_out_curve_zero]
  norm_num

theorem mid_in_out_elastic : ease_in_out_elastic 0.5 =
    Real.sin (((0.5:ℝ) * 20 + -11.125) * 1.3962634) * 0.5 + 1 := by
  rw [ease_in_out_elastic, if_neg (by norm_num : (0.5:ℝ) ≠ 0),
    if_neg (by norm_num : (0.5:ℝ) ≠ 1),
    if_neg (by norm_num : ¬ (0.5:ℝ) < from_f32 0.5)]
  simp only [powf, mul_add, from_f32_eq, lit_ten, lit_twenty]
  norm_num [Real.exp_zero]

/-- C10: at input exactly `0.5` every piecewise in-out function takes its upper
branch (the comparison is strict `t < 0.5`), and for the quad, cubic, quart, quint,
circ, back, bounce, expo and curve (any parameter) variants that branch evaluates
to exactly `0.5`, so the two branch formulas meet at the midpoint; for elastic the
selected upper branch evaluates to its (not exactly `0.5`) upper-branch formula. -/
theorem C10_midpoint_upper_branch :
    ease_in_out_quad 0.5 = 0.5 ∧ ease_in_out_cubic 0.5 = 0.5 ∧
    ease_in_out_quart 0.5 = 0.5 ∧ ease_in_out_quint 0.5 = 0.5 ∧
    ease_in_out_circ 0.5 = 0.5 ∧ ease_in_out_back 0.5 = 0.5 ∧
    ease_in_out_bounce 0.5 = 0.5 ∧ ease_in_out_expo 0.5 = 0.5 ∧
    (∀ c : ℝ, ease_in_out_curve 0.5 c = 0.5) ∧
    ease_in_out_elastic 0.5 =
      Real.sin (((0.5:ℝ) * 20 + -11.125) * 1.3962634) * 0.5 + 1 :=
  ⟨mid_in_out_quad, mid_in_out_cubic, mid_in_out_quart, mid_in_out_quint,
    mid_in_out_circ, mid_in_out_back, mid_in_out_bounce, mid_in_out_expo,
    mid_in_out_curve, mid_in_out_elastic⟩

end Nova

end
